import Mathlib

/-!
Verification of `pylib/preferences.py` (polychromatic): a shallow embedding
of the preferences store — JSON documents, a small filesystem model, the
load/save/get/set/exists accessors, schema validation with defaults, and
the version-migration engine (`upgrade_old_pref`).
-/

set_option autoImplicit false

namespace Pref

/-- JSON-like values as produced by `json.load`: strings, booleans,
integers, lists and objects (Python dicts, modelled as association lists
in insertion order with unique keys maintained by construction). -/
inductive Value where
  | str (s : String)
  | bool (b : Bool)
  | int (n : Int)
  | list (xs : List Value)
  | obj (kvs : List (String × Value))

mutual

/-- Decidable structural equality for `Value` (hand-rolled, mutually with
its nested lists, because the deriving handler does not support this nested
inductive; structural recursion keeps it kernel-reducible). -/
def Value.decEq : (a b : Value) → Decidable (a = b)
  | .str a, .str b => if h : a = b then .isTrue (by rw [h]) else .isFalse (by simp [h])
  | .bool a, .bool b => if h : a = b then .isTrue (by rw [h]) else .isFalse (by simp [h])
  | .int a, .int b => if h : a = b then .isTrue (by rw [h]) else .isFalse (by simp [h])
  | .list xs, .list ys =>
    match Value.decEqL xs ys with
    | .isTrue h => .isTrue (by rw [h])
    | .isFalse h => .isFalse (by simp [h])
  | .obj xs, .obj ys =>
    match Value.decEqKV xs ys with
    | .isTrue h => .isTrue (by rw [h])
    | .isFalse h => .isFalse (by simp [h])
  | .str _, .bool _ => .isFalse nofun
  | .str _, .int _ => .isFalse nofun
  | .str _, .list _ => .isFalse nofun
  | .str _, .obj _ => .isFalse nofun
  | .bool _, .str _ => .isFalse nofun
  | .bool _, .int _ => .isFalse nofun
  | .bool _, .list _ => .isFalse nofun
  | .bool _, .obj _ => .isFalse nofun
  | .int _, .str _ => .isFalse nofun
  | .int _, .bool _ => .isFalse nofun
  | .int _, .list _ => .isFalse nofun
  | .int _, .obj _ => .isFalse nofun
  | .list _, .str _ => .isFalse nofun
  | .list _, .bool _ => .isFalse nofun
  | .list _, .int _ => .isFalse nofun
  | .list _, .obj _ => .isFalse nofun
  | .obj _, .str _ => .isFalse nofun
  | .obj _, .bool _ => .isFalse nofun
  | .obj _, .int _ => .isFalse nofun
  | .obj _, .list _ => .isFalse nofun

/-- Componentwise decidable equality for nested value lists. -/
def Value.decEqL : (xs ys : List Value) → Decidable (xs = ys)
  | [], [] => .isTrue rfl
  | x :: xs, y :: ys =>
    match Value.decEq x y, Value.decEqL xs ys with
    | .isTrue h1, .isTrue h2 => .isTrue (by rw [h1, h2])
    | .isFalse h1, _ => .isFalse (by simp [h1])
    | _, .isFalse h2 => .isFalse (by simp [h2])
  | [], _ :: _ => .isFalse nofun
  | _ :: _, [] => .isFalse nofun

/-- Componentwise decidable equality for nested key-value lists. -/
def Value.decEqKV : (xs ys : List (String × Value)) → Decidable (xs = ys)
  | [], [] => .isTrue rfl
  | (k, x) :: xs, (l, y) :: ys =>
    match instDecidableEqString k l, Value.decEq x y, Value.decEqKV xs ys with
    | .isTrue hk, .isTrue h1, .isTrue h2 => .isTrue (by rw [hk, h1, h2])
    | .isFalse hk, _, _ => .isFalse (by simp [hk])
    | _, .isFalse h1, _ => .isFalse (by simp [h1])
    | _, _, .isFalse h2 => .isFalse (by simp [h2])
  | [], _ :: _ => .isFalse nofun
  | _ :: _, [] => .isFalse nofun

end

instance : DecidableEq Value := Value.decEq

instance {ε α : Type} [DecidableEq ε] [DecidableEq α] : DecidableEq (Except ε α) :=
  fun a b =>
    match a, b with
    | .ok a, .ok b => if h : a = b then .isTrue (by rw [h]) else .isFalse (by simp [h])
    | .error a, .error b =>
      if h : a = b then .isTrue (by rw [h]) else .isFalse (by simp [h])
    | .ok _, .error _ => .isFalse nofun
    | .error _, .ok _ => .isFalse nofun

/-- Python exceptions that the embedded code can raise. -/
inductive PyErr where
  | keyError
  | typeError
  | valueError
  | permissionError
  | fileNotFound
  | attributeError
  deriving Repr, DecidableEq

/-- First-match lookup in an association list (Python dict indexing). -/
def lookupKV : List (String × Value) → String → Option Value
  | [], _ => none
  | (k, v) :: kvs, key => if k = key then some v else lookupKV kvs key

/-- Replace the value at a key, keeping its position, or append the pair
(Python dict assignment semantics). -/
def setKV : List (String × Value) → String → Value → List (String × Value)
  | [], key, v => [(key, v)]
  | (k, w) :: kvs, key, v =>
    if k = key then (k, v) :: kvs else (k, w) :: setKV kvs key v

/-- `d[k]`: KeyError on a missing dict key, TypeError on a non-dict. -/
def pyGetItem (d : Value) (k : String) : Except PyErr Value :=
  match d with
  | .obj kvs =>
    match lookupKV kvs k with
    | some v => .ok v
    | none => .error .keyError
  | _ => .error .typeError

/-- `d[k] = v`: TypeError on a non-dict (string-keyed assignment). -/
def pySetItem (d : Value) (k : String) (v : Value) : Except PyErr Value :=
  match d with
  | .obj kvs => .ok (.obj (setKV kvs k v))
  | _ => .error .typeError

mutual

/-- Python `==` on JSON values: `True == 1`, `False == 0`; lists compare
elementwise in order; dicts compare as unordered finite maps. -/
def pyEq : Value → Value → Bool
  | .str a, .str b => a = b
  | .bool a, .bool b => a = b
  | .int a, .int b => a = b
  | .bool a, .int b => (if a then (1 : Int) else 0) = b
  | .int a, .bool b => a = (if b then (1 : Int) else 0)
  | .list xs, .list ys => pyEqList xs ys
  | .obj kvs1, .obj kvs2 => (kvs1.length = kvs2.length : Bool) && pyEqObjSub kvs1 kvs2
  | _, _ => false

/-- Elementwise Python `==` on lists. -/
def pyEqList : List Value → List Value → Bool
  | [], [] => true
  | x :: xs, y :: ys => pyEq x y && pyEqList xs ys
  | _, _ => false

/-- Every key of the first list is present in the second with a
Python-equal value. -/
def pyEqObjSub : List (String × Value) → List (String × Value) → Bool
  | [], _ => true
  | (k, v) :: kvs, kvs2 =>
    (match lookupKV kvs2 k with
     | some w => pyEq v w
     | none => false) && pyEqObjSub kvs kvs2

end

/-- The exact Python types that `_validate` compares against with
`type(x) != data_type`. -/
inductive PyType where
  | str
  | bool
  deriving DecidableEq

/-- `type(v) == t` (exact type match; `bool` is not `str` and vice versa). -/
def typeMatches : PyType → Value → Bool
  | .str, .str _ => true
  | .bool, .bool _ => true
  | _, _ => false

/-- Python `int(v)`: identity on ints, 0/1 on bools, parse for strings
(ValueError when unparsable), TypeError otherwise. -/
def pyToInt : Value → Except PyErr Int
  | .int n => .ok n
  | .bool b => .ok (if b then 1 else 0)
  | .str s =>
    match s.toInt? with
    | some n => .ok n
    | none => .error .valueError
  | _ => .error .typeError

/-- On-disk bytes of one file: either unparsable content (tagged with the
raw text, so that preservation can be stated) or a serialized JSON value. -/
inductive Content where
  | corrupt (raw : String)
  | json (v : Value)
  deriving DecidableEq

/-- One path's state: absent, or a file with a writability flag. -/
inductive FileState where
  | absent
  | file (writable : Bool) (content : Content)
  deriving DecidableEq

/-- The filesystem: per-path file states plus, per path, whether the
containing directory allows creating/renaming/removing that path. -/
structure FS where
  files : String → FileState
  dirW : String → Bool

def FS.setFile (fs : FS) (p : String) (st : FileState) : FS :=
  { fs with files := fun q => if q = p then st else fs.files q }

/-- `os.path.exists`. -/
def osPathExists (fs : FS) (p : String) : Bool :=
  match fs.files p with
  | .absent => false
  | .file _ _ => true

/-- `os.access(p, os.W_OK)` (false for a missing file). -/
def osAccessW (fs : FS) (p : String) : Bool :=
  match fs.files p with
  | .absent => false
  | .file w _ => w

/-- `os.remove`: FileNotFoundError when absent, PermissionError when the
directory forbids unlinking. -/
def osRemoveE (fs : FS) (p : String) : Except PyErr FS :=
  match fs.files p with
  | .absent => .error .fileNotFound
  | .file _ _ =>
    if fs.dirW p then .ok (fs.setFile p .absent) else .error .permissionError

/-- `os.rename src dst` (overwrites `dst`; moves the file with its
permission bit). -/
def osRenameE (fs : FS) (src dst : String) : Except PyErr FS :=
  match fs.files src with
  | .absent => .error .fileNotFound
  | .file w c =>
    if fs.dirW src && fs.dirW dst then
      .ok ((fs.setFile src .absent).setFile dst (.file w c))
    else .error .permissionError

/-- `open(p, "w").close()` on a missing path: creates an empty (hence
JSON-unparsable) file, writable by its creator; raises PermissionError when
the directory is not writable. -/
def osCreate (fs : FS) (p : String) : Except PyErr FS :=
  if fs.dirW p then .ok (fs.setFile p (.file true (.corrupt ""))) else .error .permissionError

/-- `version = 7` — the compiled-in current configuration version. -/
def version : Int := 7

/-- `path.preferences`. -/
def prefsPath : String := "preferences.json"

/-- `path.colours`. -/
def coloursPath : String := "colours.json"

/-- `path.old_devicestate`. -/
def oldDevicestatePath : String := "devicestate.json"

/-- `save_file(filepath, newdata)`: injects `config_version` when saving the
preferences file (mutating the caller's dict — hence the mutated dict is
returned), creates the file when absent, writes when writable, and returns
the success flag.  On an uncaught exception the filesystem mutated so far is
still returned. -/
def save_file (filepath : String) (newdata : Value) (fs : FS) :
    (Except PyErr (Bool × Value)) × FS :=
  match (if filepath = prefsPath then pySetItem newdata "config_version" (.int version)
         else .ok newdata) with
  | .error e => (.error e, fs)
  | .ok newdata =>
    match (if osPathExists fs filepath then .ok fs else osCreate fs filepath) with
    | .error e => (.error e, fs)
    | .ok fs =>
      if osAccessW fs filepath then
        (.ok (true, newdata), fs.setFile filepath (.file true (.json newdata)))
      else
        (.ok (false, newdata), fs)

/-- `init_config(filepath)`: back up an existing (corrupt) file under a
`.bak` suffix and write a fresh empty document.  The whole body is wrapped
in a log-only `except`, so failures leave whatever partial effects already
happened. -/
def init_config (filepath : String) (fs : FS) : FS :=
  if osPathExists fs filepath then
    match osRenameE fs filepath (filepath ++ ".bak") with
    | .error _ => fs
    | .ok fs1 =>
      match save_file filepath (.obj []) fs1 with
      | (_, fs2) => fs2
  else
    match save_file filepath (.obj []) fs with
    | (_, fs2) => fs2

/-- One `(group, key, expected type, default)` row of the compiled-in
default set. -/
structure DefaultEntry where
  group : String
  item : String
  dataType : PyType
  defaultValue : Value

/-- The six defaults validated by `load_file` for the preferences file. -/
def defaultEntries : List DefaultEntry :=
  [⟨"colours", "primary", .str, .str "#00FF00"⟩,
   ⟨"colours", "secondary", .str, .str "#FF0000"⟩,
   ⟨"effects", "live_preview", .bool, .bool true⟩,
   ⟨"general", "landing_tab", .str, .str "devices"⟩,
   ⟨"tray", "force_legacy_gtk_status", .bool, .bool false⟩,
   ⟨"tray", "icon", .str, .str "ui/img/tray/light/polychromatic.svg"⟩]

/-- `try: data[group]  except KeyError: data[group] = {}`. -/
def ensureGroup (g : String) (data : Value) : Except PyErr Value :=
  match pyGetItem data g with
  | .ok _ => .ok data
  | .error .keyError => pySetItem data g (.obj [])
  | .error e => .error e

/-- `data[group][item]` (both fetches; KeyError/TypeError as in Python). -/
def getGK (d : Value) (g k : String) : Except PyErr Value :=
  match pyGetItem d g with
  | .ok gv => pyGetItem gv k
  | .error e => .error e

/-- `data[group][item] = v`, including the aliasing of the inner dict back
into `data`. -/
def setGK (d : Value) (g k : String) (v : Value) : Except PyErr Value :=
  match pyGetItem d g with
  | .ok gv =>
    match pySetItem gv k v with
    | .ok gv' => pySetItem d g gv'
    | .error e => .error e
  | .error e => .error e

/-- `data[group][item] = default_value; save_file(path.preferences, data)` —
one repair of `_validate`, returning the dict as further mutated by
`save_file`'s `config_version` injection. -/
def repairSave (e : DefaultEntry) (d : Value) (fs : FS) : (Except PyErr Value) × FS :=
  match setGK d e.group e.item e.defaultValue with
  | .error err => (.error err, fs)
  | .ok d' =>
    match save_file prefsPath d' fs with
    | (.error err, fs') => (.error err, fs')
    | (.ok (_, d''), fs') => (.ok d'', fs')

/-- One `_validate(group, item, data_type, default_value)` call of
`load_file`; also counts how many saves it performed. -/
def validate1 (e : DefaultEntry) (data : Value) (fs : FS) :
    (Except PyErr (Value × Nat)) × FS :=
  match ensureGroup e.group data with
  | .error err => (.error err, fs)
  | .ok d0 =>
    match (match getGK d0 e.group e.item with
           | .ok _ => ((.ok d0 : Except PyErr Value), 0, fs)
           | .error .keyError =>
             match repairSave e d0 fs with
             | (.ok d1, fs') => (.ok d1, 1, fs')
             | (.error err, fs') => (.error err, 0, fs')
           | .error err => (.error err, 0, fs)) with
    | (.error err, _, fs1) => (.error err, fs1)
    | (.ok d1, n1, fs1) =>
      match getGK d1 e.group e.item with
      | .error err => (.error err, fs1)
      | .ok v =>
        if typeMatches e.dataType v then (.ok (d1, n1), fs1)
        else
          match repairSave e d1 fs1 with
          | (.ok d2, fs2) => (.ok (d2, n1 + 1), fs2)
          | (.error err, fs2) => (.error err, fs2)

/-- The `_validate` calls of `load_file`, in order. -/
def validateList : List DefaultEntry → Value → FS → (Except PyErr (Value × Nat)) × FS
  | [], d, fs => (.ok (d, 0), fs)
  | e :: es, d, fs =>
    match validate1 e d fs with
    | (.ok (d1, n1), fs1) =>
      match validateList es d1 fs1 with
      | (.ok (d2, n2), fs2) => (.ok (d2, n1 + n2), fs2)
      | (.error err, fs2) => (.error err, fs2)
    | (.error err, fs1) => (.error err, fs1)

/-- The parse step of `load_file`: read the JSON document, or recreate the
file via `init_config` (returning `{}`) when absent or corrupt — the parse
error never escapes. -/
def parseOrInit (filepath : String) (fs : FS) : Value × FS :=
  match fs.files filepath with
  | .file _ (.json v) => (v, fs)
  | .file _ (.corrupt _) => (Value.obj [], init_config filepath fs)
  | .absent => (Value.obj [], init_config filepath fs)

/-- `load_file(filepath)`: parse (with corruption recovery), then run the
default validation when the file is the preferences file. -/
def load_file (filepath : String) (fs : FS) : (Except PyErr Value) × FS :=
  match parseOrInit filepath fs with
  | (data, fs) =>
    if filepath = prefsPath then
      match validateList defaultEntries data fs with
      | (.ok (d, _), fs) => (.ok d, fs)
      | (.error err, fs) => (.error err, fs)
    else (.ok data, fs)

/-- `set(group, item, value, filepath)`: load, coerce the literal strings
`"true"`/`"false"` to booleans, create the group when absent, write and
save — with the write/save failures swallowed by a log-only `except`. -/
def set (group item : String) (value : Value) (filepath : Option String) (fs : FS) :
    (Except PyErr Unit) × FS :=
  let filepath := filepath.getD prefsPath
  match load_file filepath fs with
  | (.error e, fs) => (.error e, fs)
  | (.ok data, fs) =>
    let value := if pyEq value (.str "true") then .bool true else value
    let value := if pyEq value (.str "false") then .bool false else value
    match (match pyGetItem data group with
           | .ok _ => (.ok data : Except PyErr Value)
           | .error _ => pySetItem data group (.obj [])) with
    | .error e => (.error e, fs)
    | .ok data =>
      match setGK data group item value with
      | .error _ => (.ok (), fs)
      | .ok data =>
        match save_file filepath data fs with
        | (_, fs) => (.ok (), fs)

/-- `get(group, item, default_value, filepath)`: load and return
`data[group][item]`; the `default_value` parameter is accepted but unused. -/
def get (group item : String) (default_value : Value) (filepath : Option String) (fs : FS) :
    (Except PyErr Value) × FS :=
  let filepath := filepath.getD prefsPath
  match load_file filepath fs with
  | (.error e, fs) => (.error e, fs)
  | (.ok data, fs) =>
    match getGK data group item with
    | .ok v => (.ok v, fs)
    | .error e => (.error e, fs)

/-- The `try: open(path.preferences); json.load; int(data["config_version"])`
header of `upgrade_old_pref`; any failure here is caught and aborts the
migration silently. -/
def upgrade_read_version (fs : FS) : Except PyErr Int :=
  match fs.files prefsPath with
  | .absent => .error .fileNotFound
  | .file _ (.corrupt _) => .error .valueError
  | .file _ (.json d) =>
    match pyGetItem d "config_version" with
    | .ok v => pyToInt v
    | .error e => .error e

/-- One iteration of the `<5` cleanup loop: coerce a string-valued
`editor.<key>` to a boolean (`"true"`/`"True"` to `True`, any other string
to `False`); everything else, including any exception, is left alone. -/
def editorCoerceKey (d : Value) (key : String) : Value :=
  match getGK d "editor" key with
  | .ok (.str s) =>
    match setGK d "editor" key (.bool (s = "true" || s = "True")) with
    | .ok d' => d'
    | .error _ => d
  | _ => d

/-- The `config_version < 5` migration step: clean boolean-like strings in
the `editor` group and save. -/
def upgrade_step_lt5 (config_version : Int) (fs : FS) : (Except PyErr Unit) × FS :=
  if config_version < 5 then
    match load_file prefsPath fs with
    | (.error e, fs) => (.error e, fs)
    | (.ok data, fs) =>
      let data := ["activate_on_save", "live_switch", "live_preview"].foldl editorCoerceKey data
      match save_file prefsPath data fs with
      | (.error e, fs) => (.error e, fs)
      | (.ok _, fs) => (.ok (), fs)
  else (.ok (), fs)

/-- `for filepath in [...]: if os.path.exists(filepath): os.remove(filepath)`. -/
def removeIfExists : List String → FS → (Except PyErr Unit) × FS
  | [], fs => (.ok (), fs)
  | p :: ps, fs =>
    if osPathExists fs p then
      match osRemoveE fs p with
      | .ok fs => removeIfExists ps fs
      | .error e => (.error e, fs)
    else removeIfExists ps fs

/-- The `config_version == 6` reset: delete the preferences, colours and
legacy devicestate files when present (and stop the migration run). -/
def upgrade_step_eq6 (fs : FS) : (Except PyErr Unit) × FS :=
  removeIfExists [prefsPath, coloursPath, oldDevicestatePath] fs

/-- The five fixed `builtin` tray-icon paths, keyed by legacy ID. -/
def builtinMapping : List (String × String) :=
  [("0", "ui/img/tray/light/humanity.svg"),
   ("1", "ui/img/tray/dark/humanity.svg"),
   ("2", "ui/img/tray/animated/chroma.gif"),
   ("3", "ui/img/tray/light/breeze.svg"),
   ("4", "ui/img/tray/dark/breeze.svg")]

/-- Derivation of the new `tray.icon` value from the legacy
`tray_icon.{type,value}` structure.  `gtkResolve` is the injected
`common.get_path_from_gtk_icon_name` collaborator.  KeyErrors are caught
(outer and inner `except KeyError`), other exceptions propagate. -/
def trayIconFromOld (gtkResolve : Value → Value) (old_data : Value) : Except PyErr Value :=
  match getGK old_data "tray_icon" "type" with
  | .error .keyError => .ok (.str "")
  | .error e => .error e
  | .ok old_type =>
    if pyEq old_type (.str "gtk") then
      match getGK old_data "tray_icon" "value" with
      | .ok v => .ok (gtkResolve v)
      | .error .keyError => .ok (.str "")
      | .error e => .error e
    else if pyEq old_type (.str "custom") then
      match getGK old_data "tray_icon" "value" with
      | .ok v => .ok v
      | .error .keyError => .ok (.str "")
      | .error e => .error e
    else if pyEq old_type (.str "builtin") then
      match getGK old_data "tray_icon" "value" with
      | .error .keyError => .ok (.str "")
      | .error e => .error e
      | .ok v =>
        match v with
        | .list _ => .error .typeError
        | .obj _ => .error .typeError
        | .str s =>
          match List.lookup s builtinMapping with
          | some p => .ok (.str p)
          | none => .ok (.str "")
        | _ => .ok (.str "")
    else .ok (.str "")

/-- `old_data["editor"]["live_preview"]` with `except KeyError: False`. -/
def livePreviewFromOld (old_data : Value) : Except PyErr Value :=
  match getGK old_data "editor" "live_preview" with
  | .ok v => .ok v
  | .error .keyError => .ok (.bool false)
  | .error e => .error e

/-- The fixed legacy v0.3.12 9-entry palette (`old_colour_json`). -/
def old_colour_json : Value :=
  .obj [("1", .obj [("name", .str "White"), ("col", .list [.int 255, .int 255, .int 255])]),
        ("2", .obj [("name", .str "Red"), ("col", .list [.int 255, .int 0, .int 0])]),
        ("3", .obj [("name", .str "Orange"), ("col", .list [.int 255, .int 165, .int 0])]),
        ("4", .obj [("name", .str "Yellow"), ("col", .list [.int 255, .int 255, .int 0])]),
        ("5", .obj [("name", .str "Signature Green"), ("col", .list [.int 0, .int 255, .int 0])]),
        ("6", .obj [("name", .str "Aqua"), ("col", .list [.int 0, .int 255, .int 255])]),
        ("7", .obj [("name", .str "Blue"), ("col", .list [.int 0, .int 0, .int 255])]),
        ("8", .obj [("name", .str "Purple"), ("col", .list [.int 128, .int 0, .int 128])]),
        ("9", .obj [("name", .str "Pink"), ("col", .list [.int 255, .int 0, .int 255])])]

/-- Python's `<` on strings: lexicographic comparison by code point, a
proper prefix comparing less. -/
def strLtB : List Char → List Char → Bool
  | _, [] => false
  | [], _ :: _ => true
  | a :: as, b :: bs =>
    if a.toNat < b.toNat then true
    else if b.toNat < a.toNat then false
    else strLtB as bs

/-- Insert into an ascending list (by Python's string order). -/
def insertAsc (s : String) : List String → List String
  | [] => [s]
  | t :: ts => if strLtB s.data t.data then s :: t :: ts else t :: insertAsc s ts

/-- `list.sort()` on strings: ascending lexicographic insertion sort. -/
def sortStrings (l : List String) : List String := l.foldr insertAsc []

/-- `a` may precede `b` in an ascending list: `b < a` is false. -/
def strOrdered (a b : String) : Prop := strLtB b.data a.data = false

/-- The conversion loop: for each sorted legacy ID, build
`{"name": ..., "hex": rgb_to_hex(col)}`.  `rgbToHex` is the injected
`common.rgb_to_hex` collaborator. -/
def buildColours (rgbToHex : Value → String) (oc : Value) :
    List String → Except PyErr (List Value)
  | [] => .ok []
  | id :: ids => do
    let entry ← pyGetItem oc id
    let nm ← pyGetItem entry "name"
    let cl ← pyGetItem entry "col"
    let rest ← buildColours rgbToHex oc ids
    .ok (Value.obj [("name", nm), ("hex", .str (rgbToHex cl))] :: rest)

/-- The colours half of the `<7` step: load the colours document; delete it
when it still equals the fixed legacy palette; otherwise, when it is not
yet a list, convert it to the sorted `{name, hex}` list and save; a list is
left untouched. -/
def migrate_colours (rgbToHex : Value → String) (fs : FS) : (Except PyErr Unit) × FS :=
  match load_file coloursPath fs with
  | (.error e, fs) => (.error e, fs)
  | (.ok old_colours, fs) =>
    if pyEq old_colours old_colour_json then
      match osRemoveE fs coloursPath with
      | .ok fs => (.ok (), fs)
      | .error e => (.error e, fs)
    else
      match old_colours with
      | .list _ => (.ok (), fs)
      | .obj kvs =>
        let old_ids := sortStrings (kvs.map Prod.fst)
        match buildColours rgbToHex old_colours old_ids with
        | .error e => (.error e, fs)
        | .ok new_colours =>
          match save_file coloursPath (.list new_colours) fs with
          | (.error e, fs) => (.error e, fs)
          | (.ok _, fs) => (.ok (), fs)
      | _ => (.error .attributeError, fs)

/-- The `config_version < 7` migration step: rebuild the preferences
document in the new group layout, delete it and save the replacement,
remove the obsolete devicestate file, then handle the colours document. -/
def upgrade_step_lt7 (gtkResolve : Value → Value) (rgbToHex : Value → String)
    (config_version : Int) (fs : FS) : (Except PyErr Unit) × FS :=
  if config_version < 7 then
    match load_file prefsPath fs with
    | (.error e, fs) => (.error e, fs)
    | (.ok old_data, fs) =>
      match trayIconFromOld gtkResolve old_data with
      | .error e => (.error e, fs)
      | .ok new_tray_value =>
        match livePreviewFromOld old_data with
        | .error e => (.error e, fs)
        | .ok old_live_preview =>
          let new_data : Value :=
            .obj [("colours", .obj [("primary", .str "#00FF00"),
                                    ("secondary", .str "#00FFFF")]),
                  ("effects", .obj [("live_preview", old_live_preview)]),
                  ("tray", .obj [("force_legacy_gtk_status", .bool false),
                                 ("icon", new_tray_value)])]
          match osRemoveE fs prefsPath with
          | .error e => (.error e, fs)
          | .ok fs =>
            match save_file prefsPath new_data fs with
            | (.error e, fs) => (.error e, fs)
            | (.ok _, fs) =>
              match (if osPathExists fs oldDevicestatePath then
                       osRemoveE fs oldDevicestatePath
                     else .ok fs) with
              | .error e => (.error e, fs)
              | .ok fs => migrate_colours rgbToHex fs
  else (.ok (), fs)

/-- The final stamp of `upgrade_old_pref`: reload the preferences document,
write `config_version = version` and save. -/
def upgrade_finalize (fs : FS) : (Except PyErr Unit) × FS :=
  match load_file prefsPath fs with
  | (.error e, fs) => (.error e, fs)
  | (.ok data, fs) =>
    match pySetItem data "config_version" (.int version) with
    | .error e => (.error e, fs)
    | .ok data =>
      match save_file prefsPath data fs with
      | (.error e, fs) => (.error e, fs)
      | (.ok _, fs) => (.ok (), fs)

/-- `upgrade_old_pref()`: read the stored version (aborting silently when
unreadable); no-op when current; warn-only when newer than the software;
otherwise run the applicable steps in order — `<5` cleanup, `==6` reset
(which returns without stamping), `<7` rebuild — and finally stamp the
current version. -/
def upgrade_old_pref (gtkResolve : Value → Value) (rgbToHex : Value → String)
    (fs : FS) : (Except PyErr Unit) × FS :=
  match upgrade_read_version fs with
  | .error _ => (.ok (), fs)
  | .ok config_version =>
    if version = config_version then (.ok (), fs)
    else if config_version > version then (.ok (), fs)
    else
      match upgrade_step_lt5 config_version fs with
      | (.error e, fs) => (.error e, fs)
      | (.ok (), fs) =>
        if config_version = 6 then upgrade_step_eq6 fs
        else
          match upgrade_step_lt7 gtkResolve rgbToHex config_version fs with
          | (.error e, fs) => (.error e, fs)
          | (.ok (), fs) => upgrade_finalize fs

/-- `exists(group, item, filepath)`: load, then report whether
`data[group][item]` can be read (bare `except` → false). -/
def «exists» (group item : String) (filepath : Option String) (fs : FS) :
    (Except PyErr Bool) × FS :=
  let filepath := filepath.getD prefsPath
  match load_file filepath fs with
  | (.error e, fs) => (.error e, fs)
  | (.ok data, fs) =>
    match getGK data group item with
    | .ok _ => (.ok true, fs)
    | .error _ => (.ok false, fs)

/-! ## Basic lemmas about the dict primitives -/

theorem lookupKV_setKV_self (kvs : List (String × Value)) (k : String) (v : Value) :
    lookupKV (setKV kvs k v) k = some v := by
  induction kvs with
  | nil => simp [setKV, lookupKV]
  | cons p kvs ih =>
    obtain ⟨k', w⟩ := p
    by_cases h : k' = k
    · simp [setKV, lookupKV, h]
    · simp [setKV, lookupKV, h, ih]

theorem lookupKV_setKV_ne (kvs : List (String × Value)) (k k' : String) (v : Value)
    (h : k' ≠ k) : lookupKV (setKV kvs k v) k' = lookupKV kvs k' := by
  induction kvs with
  | nil => simp [setKV, lookupKV, Ne.symm h]
  | cons p kvs ih =>
    obtain ⟨k'', w⟩ := p
    by_cases h2 : k'' = k
    · subst h2
      simp [setKV, lookupKV, Ne.symm h]
    · simp only [setKV, if_neg h2, lookupKV]
      by_cases h3 : k'' = k'
      · simp [h3]
      · simp [h3, ih]

/-- `true` iff the value is a dict. -/
def isObjV : Value → Bool
  | .obj _ => true
  | _ => false

/-- Top-level key lookup (none on a non-dict). -/
def topVal (d : Value) (g : String) : Option Value :=
  match d with
  | .obj kvs => lookupKV kvs g
  | _ => none

/-- The entry's (group, key) is present with a value of the expected type. -/
def entryOk (d : Value) (e : DefaultEntry) : Bool :=
  match getGK d e.group e.item with
  | .ok v => typeMatches e.dataType v
  | .error _ => false

/-- Every compiled-in default entry is present and well-typed. -/
def allEntriesOk (d : Value) : Bool := defaultEntries.all (entryOk d)

/-- `d` is a dict and the key `g`, when present, maps to a dict — the shape
under which `_validate`'s `except KeyError` handlers cover all raised
exceptions for that group. -/
def benignAt (d : Value) (g : String) : Bool :=
  isObjV d && (match topVal d g with
               | none => true
               | some (.obj _) => true
               | some _ => false)

/-- `benignAt` for every validated group. -/
def benignGroups (d : Value) : Bool := defaultEntries.all (fun e => benignAt d e.group)

/-- A fully-writable filesystem: every directory allows create/rename/remove
and every existing file is writable. -/
def FSW (fs : FS) : Prop :=
  (∀ p, fs.dirW p = true) ∧ (∀ p w c, fs.files p = .file w c → w = true)

theorem FSW_setFile {fs : FS} (h : FSW fs) (p : String) (st : FileState)
    (hst : ∀ w c, st = .file w c → w = true) : FSW (fs.setFile p st) := by
  refine ⟨fun q => h.1 q, fun q w c hq => ?_⟩
  by_cases hqp : q = p
  · subst hqp
    simp only [FS.setFile, if_pos rfl] at hq
    exact hst w c hq
  · simp only [FS.setFile, if_neg hqp] at hq
    exact h.2 q w c hq

theorem FS.setFile_files_ne (fs : FS) (p q : String) (st : FileState) (h : q ≠ p) :
    (fs.setFile p st).files q = fs.files q := by
  simp [FS.setFile, h]

theorem FS.setFile_files_self (fs : FS) (p : String) (st : FileState) :
    (fs.setFile p st).files p = st := by
  simp [FS.setFile]

theorem FS.setFile_dirW (fs : FS) (p : String) (st : FileState) :
    (fs.setFile p st).dirW = fs.dirW := rfl

theorem FS.setFile_setFile (fs : FS) (p : String) (st st' : FileState) :
    (fs.setFile p st).setFile p st' = fs.setFile p st' := by
  unfold FS.setFile
  congr 1
  funext q
  by_cases h : q = p <;> simp [h]

theorem pyGetItem_ok {d : Value} {g : String} {v : Value} (h : pyGetItem d g = .ok v) :
    ∃ kvs, d = .obj kvs ∧ lookupKV kvs g = some v := by
  cases d with
  | obj kvs =>
    refine ⟨kvs, rfl, ?_⟩
    cases hg : lookupKV kvs g with
    | none => simp [pyGetItem, hg] at h
    | some w =>
      simp [pyGetItem, hg] at h
      simp [h]
  | str s => simp [pyGetItem] at h
  | bool b => simp [pyGetItem] at h
  | int n => simp [pyGetItem] at h
  | list l => simp [pyGetItem] at h

theorem pySetItem_ok {d d' : Value} {k : String} {v : Value} (h : pySetItem d k v = .ok d') :
    ∃ kvs, d = .obj kvs ∧ d' = .obj (setKV kvs k v) := by
  cases d with
  | obj kvs =>
    refine ⟨kvs, rfl, ?_⟩
    simp [pySetItem] at h
    exact h.symm
  | str s => simp [pySetItem] at h
  | bool b => simp [pySetItem] at h
  | int n => simp [pySetItem] at h
  | list l => simp [pySetItem] at h

theorem getGK_eq_of_top {kvs : List (String × Value)} {gkvs : List (String × Value)}
    {g : String} (k : String) (h : lookupKV kvs g = some (.obj gkvs)) :
    getGK (.obj kvs) g k = (match lookupKV gkvs k with
                            | some v => .ok v
                            | none => .error .keyError) := by
  simp [getGK, pyGetItem, h]

theorem getGK_eq_of_top_none {kvs : List (String × Value)} {g : String} (k : String)
    (h : lookupKV kvs g = none) : getGK (.obj kvs) g k = .error .keyError := by
  simp [getGK, pyGetItem, h]

theorem getGK_congr {d d' : Value} {g : String} (hd : isObjV d = true)
    (hd' : isObjV d' = true) (h : topVal d' g = topVal d g) (k : String) :
    getGK d' g k = getGK d g k := by
  cases d with
  | obj kvs =>
    cases d' with
    | obj kvs' =>
      simp only [topVal] at h
      simp [getGK, pyGetItem, h]
    | str s => simp [isObjV] at hd'
    | bool b => simp [isObjV] at hd'
    | int n => simp [isObjV] at hd'
    | list l => simp [isObjV] at hd'
  | str s => simp [isObjV] at hd
  | bool b => simp [isObjV] at hd
  | int n => simp [isObjV] at hd
  | list l => simp [isObjV] at hd

theorem setGK_ok_cases {d d' : Value} {g k : String} {v : Value}
    (h : setGK d g k v = .ok d') :
    ∃ kvs gkvs, d = .obj kvs ∧ lookupKV kvs g = some (.obj gkvs) ∧
      d' = .obj (setKV kvs g (.obj (setKV gkvs k v))) := by
  unfold setGK at h
  cases hget : pyGetItem d g with
  | error e => rw [hget] at h; cases h
  | ok gv =>
    rw [hget] at h
    obtain ⟨kvs, rfl, hl⟩ := pyGetItem_ok hget
    cases gv with
    | obj gkvs =>
      simp [pySetItem] at h
      exact ⟨kvs, gkvs, rfl, hl, h.symm⟩
    | str s => simp [pySetItem] at h
    | bool b => simp [pySetItem] at h
    | int n => simp [pySetItem] at h
    | list l => simp [pySetItem] at h

theorem setGK_eq {kvs gkvs : List (String × Value)} {g : String} (k : String) (v : Value)
    (h : lookupKV kvs g = some (.obj gkvs)) :
    setGK (.obj kvs) g k v = .ok (.obj (setKV kvs g (.obj (setKV gkvs k v)))) := by
  simp [setGK, pyGetItem, h, pySetItem]

/-! ## `save_file` computation and effect lemmas -/

theorem save_file_prefs_ok {fs : FS} (kvs : List (String × Value)) (hW : FSW fs) :
    save_file prefsPath (.obj kvs) fs =
      (.ok (true, .obj (setKV kvs "config_version" (.int version))),
       fs.setFile prefsPath
         (.file true (.json (.obj (setKV kvs "config_version" (.int version)))))) := by
  unfold save_file
  simp only [if_pos rfl, pySetItem]
  cases hf : fs.files prefsPath with
  | absent =>
    simp [osPathExists, hf, osCreate, hW.1 prefsPath, osAccessW,
      FS.setFile_files_self, FS.setFile_setFile]
  | file w c =>
    have hw := hW.2 _ _ _ hf
    subst hw
    simp only [osPathExists, hf, osAccessW, if_pos]

theorem save_file_other_ok {fs : FS} {fp : String} (d : Value) (hfp : fp ≠ prefsPath)
    (hW : FSW fs) :
    save_file fp d fs = (.ok (true, d), fs.setFile fp (.file true (.json d))) := by
  unfold save_file
  simp only [if_neg hfp]
  cases hf : fs.files fp with
  | absent =>
    simp [osPathExists, hf, osCreate, hW.1 fp, osAccessW,
      FS.setFile_files_self, FS.setFile_setFile]
  | file w c =>
    have hw := hW.2 _ _ _ hf
    subst hw
    simp only [osPathExists, hf, osAccessW, if_pos]

theorem save_file_files_ne {fp : String} {d : Value} {fs : FS} (q : String) (hq : q ≠ fp) :
    ((save_file fp d fs).2).files q = fs.files q := by
  unfold save_file
  cases hst : (if fp = prefsPath then pySetItem d "config_version" (.int version)
               else .ok d) with
  | error e => simp
  | ok nd =>
    cases hex : osPathExists fs fp with
    | true =>
      simp only [hex]
      cases hacc : osAccessW fs fp <;> simp [hacc, FS.setFile_files_ne _ _ _ _ hq]
    | false =>
      simp only [hex]
      unfold osCreate
      cases hdw : fs.dirW fp with
      | false => simp [hdw]
      | true =>
        simp only [hdw, if_pos]
        have : osAccessW (fs.setFile fp (.file true (.corrupt ""))) fp = true := by
          simp [osAccessW, FS.setFile_files_self]
        simp [this, FS.setFile_setFile, FS.setFile_files_ne _ _ _ _ hq]

theorem save_file_dirW {fp : String} {d : Value} {fs : FS} :
    ((save_file fp d fs).2).dirW = fs.dirW := by
  unfold save_file
  cases hst : (if fp = prefsPath then pySetItem d "config_version" (.int version)
               else .ok d) with
  | error e => simp
  | ok nd =>
    cases hex : osPathExists fs fp with
    | true =>
      simp only [hex]
      cases hacc : osAccessW fs fp <;> simp [hacc, FS.setFile_dirW]
    | false =>
      simp only [hex]
      unfold osCreate
      cases hdw : fs.dirW fp with
      | false => simp [hdw]
      | true =>
        simp only [hdw, if_pos]
        have : osAccessW (fs.setFile fp (.file true (.corrupt ""))) fp = true := by
          simp [osAccessW, FS.setFile_files_self]
        simp [this, FS.setFile_setFile, FS.setFile_dirW]

theorem save_file_FSW {fp : String} {d : Value} {fs : FS} (hW : FSW fs) :
    FSW ((save_file fp d fs).2) := by
  unfold save_file
  cases hst : (if fp = prefsPath then pySetItem d "config_version" (.int version)
               else .ok d) with
  | error e => exact hW
  | ok nd =>
    cases hex : osPathExists fs fp with
    | true =>
      simp only [hex]
      cases hacc : osAccessW fs fp with
      | false => simpa [hacc] using hW
      | true =>
        simp only [hacc, if_pos]
        exact FSW_setFile hW _ _ (by intro w c hc; cases hc; rfl)
    | false =>
      simp only [hex]
      unfold osCreate
      cases hdw : fs.dirW fp with
      | false => simpa [hdw] using hW
      | true =>
        simp only [hdw, if_pos]
        have hacc2 : osAccessW (fs.setFile fp (.file true (.corrupt ""))) fp = true := by
          simp [osAccessW, FS.setFile_files_self]
        simp [hacc2, FS.setFile_setFile]
        exact FSW_setFile hW _ _ (by intro w c hc; cases hc; rfl)

theorem ensureGroup_ok {g : String} {d d0 : Value} (h : ensureGroup g d = .ok d0) :
    ∃ kvs, d = .obj kvs ∧
      (((lookupKV kvs g).isSome ∧ d0 = d) ∨
       (lookupKV kvs g = none ∧ d0 = .obj (setKV kvs g (.obj [])))) := by
  unfold ensureGroup at h
  cases d with
  | obj kvs =>
    refine ⟨kvs, rfl, ?_⟩
    cases hl : lookupKV kvs g with
    | some v =>
      simp [pyGetItem, hl] at h
      exact Or.inl ⟨rfl, h.symm⟩
    | none =>
      simp [pyGetItem, hl, pySetItem] at h
      exact Or.inr ⟨rfl, h.symm⟩
  | str s => simp [pyGetItem] at h
  | bool b => simp [pyGetItem] at h
  | int n => simp [pyGetItem] at h
  | list l => simp [pyGetItem] at h

theorem save_file_ok_elim {fp : String} {d' d'' : Value} {b : Bool} {fs fs' : FS}
    (h : save_file fp d' fs = (.ok (b, d''), fs')) :
    (fp = prefsPath →
      ∃ kvs', d' = .obj kvs' ∧
        d'' = .obj (setKV kvs' "config_version" (.int version))) ∧
    (fp ≠ prefsPath → d'' = d') ∧
    (∀ q, q ≠ fp → fs'.files q = fs.files q) ∧ fs'.dirW = fs.dirW := by
  have heff1 : ∀ q, q ≠ fp → fs'.files q = fs.files q := by
    intro q hq
    have := @save_file_files_ne fp d' fs q hq
    rw [h] at this
    exact this
  have heff2 : fs'.dirW = fs.dirW := by
    have := @save_file_dirW fp d' fs
    rw [h] at this
    exact this
  refine ⟨?_, ?_, heff1, heff2⟩
  · intro hfp
    subst hfp
    unfold save_file at h
    simp only [if_pos rfl] at h
    cases hps : pySetItem d' "config_version" (.int version) with
    | error e => rw [hps] at h; simp at h
    | ok nd =>
      rw [hps] at h
      obtain ⟨kvs', rfl, rfl⟩ := pySetItem_ok hps
      refine ⟨kvs', rfl, ?_⟩
      cases hcr : (if osPathExists fs prefsPath = true then (.ok fs : Except PyErr FS)
                   else osCreate fs prefsPath) with
      | error e => rw [hcr] at h; simp at h
      | ok fs1 =>
        rw [hcr] at h
        by_cases hacc : osAccessW fs1 prefsPath = true
        · simp [hacc] at h
          exact h.1.2.symm
        · simp [hacc] at h
          exact h.1.2.symm
  · intro hfp
    unfold save_file at h
    simp only [if_neg hfp] at h
    cases hcr : (if osPathExists fs fp = true then (.ok fs : Except PyErr FS)
                 else osCreate fs fp) with
    | error e => rw [hcr] at h; simp at h
    | ok fs1 =>
      rw [hcr] at h
      by_cases hacc : osAccessW fs1 fp = true
      · simp [hacc] at h
        exact h.1.2.symm
      · simp [hacc] at h
        exact h.1.2.symm

theorem repairSave_ok {e : DefaultEntry} {d d2 : Value} {fs fs2 : FS}
    (h : repairSave e d fs = (.ok d2, fs2)) :
    ∃ kvs gkvs, d = .obj kvs ∧ lookupKV kvs e.group = some (.obj gkvs) ∧
      d2 = .obj (setKV (setKV kvs e.group (.obj (setKV gkvs e.item e.defaultValue)))
                   "config_version" (.int version)) ∧
      (∀ q, q ≠ prefsPath → fs2.files q = fs.files q) ∧ fs2.dirW = fs.dirW := by
  unfold repairSave at h
  cases hsg : setGK d e.group e.item e.defaultValue with
  | error err => rw [hsg] at h; simp at h
  | ok d' =>
    rw [hsg] at h
    obtain ⟨kvs, gkvs, rfl, hl, rfl⟩ := setGK_ok_cases hsg
    dsimp only at h
    cases hsv : save_file prefsPath
        (.obj (setKV kvs e.group (.obj (setKV gkvs e.item e.defaultValue)))) fs with
    | mk r fsx =>
      rw [hsv] at h
      cases r with
      | error err => simp at h
      | ok p =>
        obtain ⟨b, d''⟩ := p
        simp at h
        obtain ⟨hd2, hfs2⟩ := h
        subst hd2 hfs2
        obtain ⟨hpref, _, heff1, heff2⟩ := save_file_ok_elim hsv
        obtain ⟨kvs2, hk2, hd''⟩ := hpref rfl
        refine ⟨kvs, gkvs, rfl, hl, ?_, heff1, heff2⟩
        cases hk2
        exact hd''

theorem getGK_repaired_self {kvs gkvs : List (String × Value)} {g : String}
    (item : String) (dflt : Value) (hgcv : g ≠ "config_version") :
    getGK (.obj (setKV (setKV kvs g (.obj (setKV gkvs item dflt))) "config_version"
      (.int version))) g item = .ok dflt := by
  have h1 : lookupKV (setKV (setKV kvs g (.obj (setKV gkvs item dflt))) "config_version"
      (.int version)) g = some (.obj (setKV gkvs item dflt)) := by
    rw [lookupKV_setKV_ne _ _ _ _ hgcv, lookupKV_setKV_self]
  rw [getGK_eq_of_top item h1, lookupKV_setKV_self]

theorem getGK_repaired_ne {kvs gkvs : List (String × Value)} {g item : String}
    (k : String) (dflt : Value) (hgcv : g ≠ "config_version") (hk : k ≠ item) :
    getGK (.obj (setKV (setKV kvs g (.obj (setKV gkvs item dflt))) "config_version"
      (.int version))) g k
      = (match lookupKV gkvs k with | some v => .ok v | none => .error .keyError) := by
  have h1 : lookupKV (setKV (setKV kvs g (.obj (setKV gkvs item dflt))) "config_version"
      (.int version)) g = some (.obj (setKV gkvs item dflt)) := by
    rw [lookupKV_setKV_ne _ _ _ _ hgcv, lookupKV_setKV_self]
  rw [getGK_eq_of_top k h1, lookupKV_setKV_ne _ _ _ _ hk]

theorem topVal_repaired_ne {kvs gkvs : List (String × Value)} {g item : String}
    {dflt : Value} (g' : String) (hg : g' ≠ g) (hcv : g' ≠ "config_version") :
    topVal (.obj (setKV (setKV kvs g (.obj (setKV gkvs item dflt))) "config_version"
      (.int version))) g' = lookupKV kvs g' := by
  simp [topVal, lookupKV_setKV_ne _ _ _ _ hcv, lookupKV_setKV_ne _ _ _ _ hg]

theorem validate1_ok_props {e : DefaultEntry} {d df : Value} {n : Nat} {fs fsf : FS}
    (h : validate1 e d fs = (.ok (df, n), fsf))
    (hty : typeMatches e.dataType e.defaultValue = true)
    (hgcv : e.group ≠ "config_version") :
    isObjV d = true ∧
    isObjV df = true ∧
    entryOk df e = true ∧
    (∀ g, g ≠ e.group → g ≠ "config_version" → topVal df g = topVal d g) ∧
    (∀ k, k ≠ e.item → getGK df e.group k = getGK d e.group k) ∧
    (∀ q, q ≠ prefsPath → fsf.files q = fs.files q) ∧ fsf.dirW = fs.dirW := by
  unfold validate1 at h
  cases hEG : ensureGroup e.group d with
  | error err => rw [hEG] at h; simp at h
  | ok d0 =>
    rw [hEG] at h
    dsimp only at h
    obtain ⟨kvs, rfl, hcase⟩ := ensureGroup_ok hEG
    cases hGK0 : getGK d0 e.group e.item with
    | ok v0 =>
      rw [hGK0] at h
      dsimp only at h
      rw [hGK0] at h
      dsimp only at h
      by_cases hty0 : typeMatches e.dataType v0 = true
      · rw [if_pos hty0] at h
        have hd0 : d0 = Value.obj kvs := by
          rcases hcase with ⟨_, rfl⟩ | ⟨hnone, hde⟩
          · rfl
          · exfalso
            rw [hde] at hGK0
            rw [getGK_eq_of_top e.item (lookupKV_setKV_self kvs e.group (.obj []))] at hGK0
            simp [lookupKV] at hGK0
        subst hd0
        obtain ⟨hdf, hn, hfs⟩ : df = Value.obj kvs ∧ n = 0 ∧ fsf = fs := by
          injection h with h1 h2
          injection h1 with h1
          injection h1 with ha hb
          exact ⟨ha.symm, hb.symm, h2.symm⟩
        subst hdf hfs
        exact ⟨rfl, rfl, by simp [entryOk, hGK0, hty0], fun g _ _ => rfl, fun k _ => rfl,
          fun q _ => rfl, rfl⟩
      · rw [if_neg hty0] at h
        cases hRS : repairSave e d0 fs with
        | mk r fs2 =>
          rw [hRS] at h
          cases r with
          | error err => simp at h
          | ok d2 =>
            dsimp only at h
            obtain ⟨hdf, hn, hfs⟩ : df = d2 ∧ n = 0 + 1 ∧ fsf = fs2 := by
              injection h with h1 h2
              injection h1 with h1
              injection h1 with ha hb
              exact ⟨ha.symm, hb.symm, h2.symm⟩
            subst hdf hfs
            obtain ⟨kvs0, gkvs0, hd0, hl0, hd2, heff1, heff2⟩ := repairSave_ok hRS
            subst hd2
            have hkvs0 : lookupKV kvs0 e.group = some (Value.obj gkvs0) := hl0
            refine ⟨rfl, rfl, ?_, ?_, ?_, heff1, heff2⟩
            · simp [entryOk, getGK_repaired_self e.item e.defaultValue hgcv, hty]
            · intro g hg hcv
              rw [topVal_repaired_ne g hg hcv]
              rcases hcase with ⟨_, hde⟩ | ⟨hnone, hde⟩
              · rw [hde] at hd0
                injection hd0 with hk0
                subst hk0
                rfl
              · rw [hde] at hd0
                injection hd0 with hk0
                subst hk0
                simp [topVal, lookupKV_setKV_ne _ _ _ _ hg]
            · intro k hk
              rw [getGK_repaired_ne k e.defaultValue hgcv hk]
              rcases hcase with ⟨_, hde⟩ | ⟨hnone, hde⟩
              · rw [hde] at hd0
                injection hd0 with hk0
                subst hk0
                rw [getGK_eq_of_top k hkvs0]
              · rw [hde] at hd0
                injection hd0 with hk0
                have : lookupKV (setKV kvs e.group (Value.obj [])) e.group
                    = some (Value.obj []) := lookupKV_setKV_self kvs e.group (.obj [])
                rw [hk0] at this
                rw [hkvs0] at this
                injection this with hgv
                injection hgv with hgv
                subst hk0
                subst hgv
                simp [lookupKV, getGK_eq_of_top_none k hnone]
    | error err =>
      rw [hGK0] at h
      cases err with
      | keyError =>
        dsimp only at h
        cases hRS : repairSave e d0 fs with
        | mk r fs1 =>
          rw [hRS] at h
          cases r with
          | error e2 => simp at h
          | ok d1 =>
            dsimp only at h
            obtain ⟨kvs0, gkvs0, hd0, hl0, hd1, heff1, heff2⟩ := repairSave_ok hRS
            subst hd1
            rw [getGK_repaired_self e.item e.defaultValue hgcv] at h
            dsimp only at h
            rw [if_pos hty] at h
            obtain ⟨hdf, hn, hfs⟩ : df = _ ∧ n = 1 ∧ fsf = fs1 := by
              injection h with h1 h2
              injection h1 with h1
              injection h1 with ha hb
              exact ⟨ha.symm, hb.symm, h2.symm⟩
            subst hdf hfs
            have hkvs0 : lookupKV kvs0 e.group = some (Value.obj gkvs0) := hl0
            refine ⟨rfl, rfl, ?_, ?_, ?_, heff1, heff2⟩
            · simp [entryOk, getGK_repaired_self e.item e.defaultValue hgcv, hty]
            · intro g hg hcv
              rw [topVal_repaired_ne g hg hcv]
              rcases hcase with ⟨_, hde⟩ | ⟨hnone, hde⟩
              · rw [hde] at hd0
                injection hd0 with hk0
                subst hk0
                rfl
              · rw [hde] at hd0
                injection hd0 with hk0
                subst hk0
                simp [topVal, lookupKV_setKV_ne _ _ _ _ hg]
            · intro k hk
              rw [getGK_repaired_ne k e.defaultValue hgcv hk]
              rcases hcase with ⟨_, hde⟩ | ⟨hnone, hde⟩
              · rw [hde] at hd0
                injection hd0 with hk0
                subst hk0
                rw [getGK_eq_of_top k hkvs0]
              · rw [hde] at hd0
                injection hd0 with hk0
                have : lookupKV (setKV kvs e.group (Value.obj [])) e.group
                    = some (Value.obj []) := lookupKV_setKV_self kvs e.group (.obj [])
                rw [hk0] at this
                rw [hkvs0] at this
                injection this with hgv
                injection hgv with hgv
                subst hk0
                subst hgv
                simp [lookupKV, getGK_eq_of_top_none k hnone]
      | typeError => simp at h
      | valueError => simp at h
      | permissionError => simp at h
      | fileNotFound => simp at h
      | attributeError => simp at h

theorem validate1_of_entryOk {e : DefaultEntry} {d : Value} (fs : FS)
    (h : entryOk d e = true) : validate1 e d fs = (.ok (d, 0), fs) := by
  unfold entryOk at h
  cases hGK : getGK d e.group e.item with
  | error err => rw [hGK] at h; simp at h
  | ok v =>
    rw [hGK] at h
    have hpg : ∃ gv, pyGetItem d e.group = .ok gv := by
      unfold getGK at hGK
      cases hp : pyGetItem d e.group with
      | error e2 => rw [hp] at hGK; cases hGK
      | ok gv => exact ⟨gv, rfl⟩
    obtain ⟨gv, hpg⟩ := hpg
    unfold validate1 ensureGroup
    rw [hpg]
    dsimp only
    rw [hGK]
    dsimp only
    rw [hGK]
    dsimp only
    rw [if_pos h]

theorem validate1_ok_of_benign {e : DefaultEntry} {d : Value} {fs : FS}
    (hW : FSW fs) (hb : benignAt d e.group = true)
    (hty : typeMatches e.dataType e.defaultValue = true)
    (hgcv : e.group ≠ "config_version") :
    ∃ df n fsf, validate1 e d fs = (.ok (df, n), fsf) ∧ FSW fsf ∧
      (osPathExists fsf prefsPath = true ∨ fsf = fs) := by
  cases d with
  | str s => simp [benignAt, isObjV] at hb
  | bool b => simp [benignAt, isObjV] at hb
  | int n => simp [benignAt, isObjV] at hb
  | list l => simp [benignAt, isObjV] at hb
  | obj kvs =>
    unfold validate1
    cases hl : lookupKV kvs e.group with
    | none =>
      have hEG : ensureGroup e.group (Value.obj kvs)
          = .ok (.obj (setKV kvs e.group (.obj []))) := by
        simp [ensureGroup, pyGetItem, hl, pySetItem]
      rw [hEG]
      dsimp only
      have hGK0 : getGK (Value.obj (setKV kvs e.group (.obj []))) e.group e.item
          = .error .keyError := by
        rw [getGK_eq_of_top e.item (lookupKV_setKV_self kvs e.group (.obj []))]
        simp [lookupKV]
      rw [hGK0]
      dsimp only
      unfold repairSave
      rw [setGK_eq e.item e.defaultValue (lookupKV_setKV_self kvs e.group (.obj []))]
      dsimp only
      rw [save_file_prefs_ok _ hW]
      dsimp only
      rw [getGK_repaired_self e.item e.defaultValue hgcv]
      dsimp only
      rw [if_pos hty]
      exact ⟨_, _, _, rfl, FSW_setFile hW _ _ (by intro w c hc; cases hc; rfl),
        Or.inl (by simp [osPathExists, FS.setFile_files_self])⟩
    | some gv =>
      have hEG : ensureGroup e.group (Value.obj kvs) = .ok (.obj kvs) := by
        simp [ensureGroup, pyGetItem, hl]
      rw [hEG]
      dsimp only
      cases gv with
      | obj gkvs =>
        cases hli : lookupKV gkvs e.item with
        | some v =>
          have hGK0 : getGK (Value.obj kvs) e.group e.item = .ok v := by
            rw [getGK_eq_of_top e.item hl, hli]
          rw [hGK0]
          dsimp only
          rw [hGK0]
          dsimp only
          by_cases hty0 : typeMatches e.dataType v = true
          · rw [if_pos hty0]
            exact ⟨_, _, _, rfl, hW, Or.inr rfl⟩
          · rw [if_neg hty0]
            unfold repairSave
            rw [setGK_eq e.item e.defaultValue hl]
            dsimp only
            rw [save_file_prefs_ok _ hW]
            dsimp only
            exact ⟨_, _, _, rfl, FSW_setFile hW _ _ (by intro w c hc; cases hc; rfl),
              Or.inl (by simp [osPathExists, FS.setFile_files_self])⟩
        | none =>
          have hGK0 : getGK (Value.obj kvs) e.group e.item = .error .keyError := by
            rw [getGK_eq_of_top e.item hl, hli]
          rw [hGK0]
          dsimp only
          unfold repairSave
          rw [setGK_eq e.item e.defaultValue hl]
          dsimp only
          rw [save_file_prefs_ok _ hW]
          dsimp only
          rw [getGK_repaired_self e.item e.defaultValue hgcv]
          dsimp only
          rw [if_pos hty]
          exact ⟨_, _, _, rfl, FSW_setFile hW _ _ (by intro w c hc; cases hc; rfl),
            Or.inl (by simp [osPathExists, FS.setFile_files_self])⟩
      | str s => simp [benignAt, topVal, hl] at hb
      | bool b => simp [benignAt, topVal, hl] at hb
      | int n => simp [benignAt, topVal, hl] at hb
      | list l => simp [benignAt, topVal, hl] at hb

theorem benignAt_of_entryOk {d : Value} {e : DefaultEntry} (h : entryOk d e = true) :
    benignAt d e.group = true := by
  unfold entryOk at h
  cases hGK : getGK d e.group e.item with
  | error err => rw [hGK] at h; simp at h
  | ok v =>
    unfold getGK at hGK
    cases hp : pyGetItem d e.group with
    | error e2 => rw [hp] at hGK; cases hGK
    | ok gv =>
      rw [hp] at hGK
      obtain ⟨kvs, rfl, hl⟩ := pyGetItem_ok hp
      obtain ⟨gkvs, rfl, _⟩ := pyGetItem_ok hGK
      simp [benignAt, isObjV, topVal, hl]

theorem benignAt_congr {d d' : Value} (g : String) (h1 : isObjV d = true)
    (h2 : isObjV d' = true) (ht : topVal d' g = topVal d g) :
    benignAt d' g = benignAt d g := by
  unfold benignAt
  rw [h1, h2, ht]

theorem entryOk_step_preserve {e : DefaultEntry} {d df : Value} {n : Nat} {fs fsf : FS}
    (h : validate1 e d fs = (.ok (df, n), fsf))
    (hty : typeMatches e.dataType e.defaultValue = true)
    (hgcv : e.group ≠ "config_version")
    {e0 : DefaultEntry} (h0cv : e0.group ≠ "config_version")
    (hne : (e0.group, e0.item) ≠ (e.group, e.item))
    (hok : entryOk d e0 = true) : entryOk df e0 = true := by
  obtain ⟨hd, hdf, _, htop, hitem, _, _⟩ := validate1_ok_props h hty hgcv
  by_cases hg : e0.group = e.group
  · have hi : e0.item ≠ e.item := by
      intro hi
      exact hne (by rw [hg, hi])
    have heq := hitem e0.item hi
    unfold entryOk at hok ⊢
    rw [hg] at hok ⊢
    rw [heq]
    exact hok
  · have heq := getGK_congr hd hdf (htop e0.group hg h0cv) e0.item
    unfold entryOk at hok ⊢
    rw [heq]
    exact hok

theorem validateList_of_allOk : ∀ (es : List DefaultEntry) {d : Value} (fs : FS),
    (∀ e ∈ es, entryOk d e = true) → validateList es d fs = (.ok (d, 0), fs)
  | [], d, fs, _ => rfl
  | e :: es, d, fs, h => by
    unfold validateList
    rw [validate1_of_entryOk fs (h e (by simp))]
    dsimp only
    rw [validateList_of_allOk es fs (fun e' he' => h e' (by simp [he']))]

theorem validateList_props : ∀ {es : List DefaultEntry} {d df : Value} {n : Nat}
    {fs fsf : FS},
    validateList es d fs = (.ok (df, n), fsf) →
    (∀ e ∈ es, typeMatches e.dataType e.defaultValue = true ∧ e.group ≠ "config_version") →
    List.Pairwise (fun a b => (a.group, a.item) ≠ (b.group, b.item)) es →
    (isObjV d = true → isObjV df = true) ∧
    (∀ e ∈ es, entryOk df e = true) ∧
    (∀ g, g ≠ "config_version" → (∀ e ∈ es, g ≠ e.group) → topVal df g = topVal d g) ∧
    (∀ e0 : DefaultEntry, e0.group ≠ "config_version" →
      (∀ e ∈ es, (e0.group, e0.item) ≠ (e.group, e.item)) →
      entryOk d e0 = true → entryOk df e0 = true) ∧
    (∀ q, q ≠ prefsPath → fsf.files q = fs.files q) ∧ fsf.dirW = fs.dirW := by
  intro es
  induction es with
  | nil =>
    intro d df n fs fsf h _ _
    unfold validateList at h
    injection h with h1 h2
    injection h1 with h1
    injection h1 with ha hb
    subst h2
    cases ha
    exact ⟨fun hx => hx, by simp, fun g _ _ => rfl, fun e0 _ _ hx => hx,
      fun q _ => rfl, rfl⟩
  | cons e es ih =>
    intro d df n fs fsf h hside hpair
    unfold validateList at h
    cases hv : validate1 e d fs with
    | mk r1 fs1 =>
      rw [hv] at h
      cases r1 with
      | error err => simp at h
      | ok p1 =>
        obtain ⟨d1, n1⟩ := p1
        dsimp only at h
        cases hvl : validateList es d1 fs1 with
        | mk r2 fs2 =>
          rw [hvl] at h
          cases r2 with
          | error err => simp at h
          | ok p2 =>
            obtain ⟨d2, n2⟩ := p2
            dsimp only at h
            obtain ⟨hdf, hn, hfs⟩ : df = d2 ∧ n = n1 + n2 ∧ fsf = fs2 := by
              injection h with h1 h2
              injection h1 with h1
              injection h1 with ha hb
              exact ⟨ha.symm, hb.symm, h2.symm⟩
            subst hdf hfs
            have hsideE := hside e (by simp)
            have hsideT : ∀ e' ∈ es,
                typeMatches e'.dataType e'.defaultValue = true ∧
                  e'.group ≠ "config_version" :=
              fun e' he' => hside e' (by simp [he'])
            have hpairT := List.Pairwise.of_cons hpair
            have hheadne : ∀ e' ∈ es, (e.group, e.item) ≠ (e'.group, e'.item) :=
              fun e' he' => (List.pairwise_cons.mp hpair).1 e' he'
            obtain ⟨hd, hobj1, hok1, htop1, hitem1, heffA, heffB⟩ :=
              validate1_ok_props hv hsideE.1 hsideE.2
            obtain ⟨ihobj, ihok, ihtop, ihpres, iheffA, iheffB⟩ :=
              ih hvl hsideT hpairT
            refine ⟨fun _ => ihobj hobj1, ?_, ?_, ?_, ?_, ?_⟩
            · intro e' he'
              rcases List.mem_cons.mp he' with rfl | hmem
              · exact ihpres e' hsideE.2 hheadne hok1
              · exact ihok e' hmem
            · intro g hcv hgs
              have h1 := htop1 g (hgs e (by simp)) hcv
              have h2 := ihtop g hcv (fun e' he' => hgs e' (by simp [he']))
              rw [h2, h1]
            · intro e0 h0cv h0ne hok0
              have hstep := entryOk_step_preserve hv hsideE.1 hsideE.2 h0cv
                (h0ne e (by simp)) hok0
              exact ihpres e0 h0cv (fun e' he' => h0ne e' (by simp [he'])) hstep
            · intro q hq
              rw [iheffA q hq, heffA q hq]
            · rw [iheffB, heffB]

theorem validateList_ok_of_benign : ∀ {es : List DefaultEntry} {d : Value} {fs : FS},
    FSW fs → isObjV d = true →
    (∀ e ∈ es, benignAt d e.group = true) →
    (∀ e ∈ es, typeMatches e.dataType e.defaultValue = true ∧ e.group ≠ "config_version") →
    ∃ df n fsf, validateList es d fs = (.ok (df, n), fsf) ∧ FSW fsf ∧
      (osPathExists fsf prefsPath = true ∨ fsf = fs) := by
  intro es
  induction es with
  | nil =>
    intro d fs hW _ _ _
    exact ⟨d, 0, fs, rfl, hW, Or.inr rfl⟩
  | cons e es ih =>
    intro d fs hW hobj hben hside
    have hsideE := hside e (by simp)
    obtain ⟨d1, n1, fs1, hv, hW1, hex1⟩ :=
      validate1_ok_of_benign hW (hben e (by simp)) hsideE.1 hsideE.2
    obtain ⟨hd, hobj1, hok1, htop1, hitem1, _, _⟩ :=
      validate1_ok_props hv hsideE.1 hsideE.2
    have hbenT : ∀ e' ∈ es, benignAt d1 e'.group = true := by
      intro e' he'
      by_cases hg : e'.group = e.group
      · rw [hg]
        exact benignAt_of_entryOk hok1
      · rw [benignAt_congr e'.group hobj hobj1
          (htop1 e'.group hg (hside e' (by simp [he'])).2)]
        exact hben e' (by simp [he'])
    obtain ⟨df, n2, fsf, hvl, hWf, hex2⟩ := ih hW1 hobj1 hbenT
      (fun e' he' => hside e' (by simp [he']))
    refine ⟨df, n1 + n2, fsf, ?_, hWf, ?_⟩
    · unfold validateList
      rw [hv]
      dsimp only
      rw [hvl]
    · rcases hex2 with hex2 | rfl
      · exact Or.inl hex2
      · exact hex1

theorem ne_append_bak (fp : String) : fp ≠ fp ++ ".bak" := by
  intro h
  have hlen := congrArg String.length h
  rw [String.length_append] at hlen
  have h4 : ".bak".length = 4 := rfl
  omega

/-- The shapes of the preferences file under which `load_file` is proven to
succeed: absent, corrupt, or a JSON dict whose validated groups, when
present, are dicts. -/
def prefsBenignState : FileState → Bool
  | .absent => true
  | .file _ (.corrupt _) => true
  | .file _ (.json (.obj kvs)) => benignGroups (.obj kvs)
  | .file _ (.json _) => false

theorem load_file_of_allOk {fs : FS} {w : Bool} {d : Value}
    (hf : fs.files prefsPath = .file w (.json d)) (hok : allEntriesOk d = true) :
    load_file prefsPath fs = (.ok d, fs) := by
  unfold load_file parseOrInit
  rw [hf]
  dsimp only
  rw [if_pos rfl]
  rw [validateList_of_allOk defaultEntries fs (fun e he => List.all_eq_true.mp hok e he)]

theorem load_file_other_json {fs : FS} {fp : String} {w : Bool} {v : Value}
    (hfp : fp ≠ prefsPath) (hf : fs.files fp = .file w (.json v)) :
    load_file fp fs = (.ok v, fs) := by
  unfold load_file parseOrInit
  rw [hf]
  dsimp only
  rw [if_neg hfp]

theorem save_file_create_ok {fs : FS} {fp : String} (d : Value) (hfp : fp ≠ prefsPath)
    (hf : fs.files fp = .absent) (hdw : fs.dirW fp = true) :
    save_file fp d fs = (.ok (true, d), fs.setFile fp (.file true (.json d))) := by
  unfold save_file
  rw [if_neg hfp]
  dsimp only
  rw [show osPathExists fs fp = false by simp [osPathExists, hf],
    if_neg Bool.false_ne_true]
  unfold osCreate
  rw [if_pos hdw]
  dsimp only
  rw [if_pos (show osAccessW (fs.setFile fp (.file true (.corrupt ""))) fp = true by
    simp [osAccessW, FS.setFile_files_self])]
  rw [FS.setFile_setFile]

theorem load_file_other_absent {fs : FS} {fp : String} (hfp : fp ≠ prefsPath)
    (hf : fs.files fp = .absent) (hdw : fs.dirW fp = true) :
    load_file fp fs = (.ok (.obj []),
      fs.setFile fp (.file true (.json (.obj [])))) := by
  unfold load_file parseOrInit
  rw [hf]
  dsimp only
  rw [if_neg hfp]
  unfold init_config
  rw [show osPathExists fs fp = false by simp [osPathExists, hf]]
  rw [save_file_create_ok _ hfp hf hdw]
  simp

theorem load_file_other_corrupt {fs : FS} {fp : String} {w : Bool} {s : String}
    (hfp : fp ≠ prefsPath) (hf : fs.files fp = .file w (.corrupt s))
    (hdw : fs.dirW fp = true) (hdwb : fs.dirW (fp ++ ".bak") = true) :
    load_file fp fs = (.ok (.obj []),
      (((fs.setFile fp .absent).setFile (fp ++ ".bak") (.file w (.corrupt s))).setFile
        fp (.file true (.json (.obj []))))) := by
  have hbak : fp ≠ fp ++ ".bak" := ne_append_bak fp
  unfold load_file parseOrInit
  rw [hf]
  dsimp only
  rw [if_neg hfp]
  unfold init_config
  rw [show osPathExists fs fp = true by simp [osPathExists, hf]]
  dsimp only
  rw [show osRenameE fs fp (fp ++ ".bak")
      = .ok ((fs.setFile fp .absent).setFile (fp ++ ".bak") (.file w (.corrupt s))) by
    unfold osRenameE
    rw [hf]
    simp [hdw, hdwb]]
  dsimp only
  have h1 : ((fs.setFile fp .absent).setFile (fp ++ ".bak")
      (.file w (.corrupt s))).files fp = .absent := by
    rw [FS.setFile_files_ne _ _ _ _ hbak, FS.setFile_files_self]
  have h2 : ((fs.setFile fp .absent).setFile (fp ++ ".bak")
      (.file w (.corrupt s))).dirW fp = true := by
    rw [FS.setFile_dirW, FS.setFile_dirW]
    exact hdw
  rw [save_file_create_ok _ hfp h1 h2]
  simp

theorem defaultEntries_side : ∀ e ∈ defaultEntries,
    typeMatches e.dataType e.defaultValue = true ∧ e.group ≠ "config_version" := by
  decide

theorem defaultEntries_pairwise :
    List.Pairwise (fun a b => (a.group, a.item) ≠ (b.group, b.item)) defaultEntries := by
  decide

theorem benignAt_empty (g : String) : benignAt (.obj []) g = true := by
  simp [benignAt, isObjV, topVal, lookupKV]

theorem init_config_prefs_absent {fs : FS} (hW : FSW fs)
    (hf : fs.files prefsPath = .absent) :
    init_config prefsPath fs = fs.setFile prefsPath
      (.file true (.json (.obj (setKV [] "config_version" (.int version))))) := by
  unfold init_config
  rw [show osPathExists fs prefsPath = false by simp [osPathExists, hf],
    if_neg Bool.false_ne_true]
  rw [save_file_prefs_ok [] hW]

theorem init_config_prefs_corrupt {fs : FS} {s : String} (hW : FSW fs)
    (hf : fs.files prefsPath = .file true (.corrupt s)) :
    init_config prefsPath fs =
      ((fs.setFile prefsPath .absent).setFile (prefsPath ++ ".bak")
        (.file true (.corrupt s))).setFile prefsPath
        (.file true (.json (.obj (setKV [] "config_version" (.int version))))) := by
  have hbak : prefsPath ≠ prefsPath ++ ".bak" := ne_append_bak prefsPath
  unfold init_config
  rw [show osPathExists fs prefsPath = true by simp [osPathExists, hf], if_pos rfl]
  rw [show osRenameE fs prefsPath (prefsPath ++ ".bak")
      = .ok ((fs.setFile prefsPath .absent).setFile (prefsPath ++ ".bak")
        (.file true (.corrupt s))) by
    unfold osRenameE
    rw [hf]
    simp [hW.1 prefsPath, hW.1 (prefsPath ++ ".bak")]]
  dsimp only
  have hW1 : FSW ((fs.setFile prefsPath .absent).setFile (prefsPath ++ ".bak")
      (.file true (.corrupt s))) := by
    refine FSW_setFile (FSW_setFile hW _ _ ?_) _ _ ?_
    · intro w c hc; cases hc
    · intro w c hc; cases hc; rfl
  rw [save_file_prefs_ok [] hW1]

theorem load_file_prefs_ok {fs : FS} (hW : FSW fs)
    (hb : prefsBenignState (fs.files prefsPath) = true) :
    ∃ df fsf, load_file prefsPath fs = (.ok df, fsf) ∧ FSW fsf ∧
      allEntriesOk df = true ∧ isObjV df = true ∧
      (∀ q, q ≠ prefsPath → q ≠ prefsPath ++ ".bak" → fsf.files q = fs.files q) ∧
      fsf.dirW = fs.dirW ∧
      (∀ w kvs, fs.files prefsPath = .file w (.json (.obj kvs)) →
        ∀ g, g ≠ "config_version" → (∀ e ∈ defaultEntries, g ≠ e.group) →
          topVal df g = topVal (.obj kvs) g) ∧
      osPathExists fsf prefsPath = true := by
  cases hf : fs.files prefsPath with
  | absent =>
    have hic := init_config_prefs_absent hW hf
    have hW2 : FSW (init_config prefsPath fs) := by
      rw [hic]
      exact FSW_setFile hW _ _ (by intro w c hc; cases hc; rfl)
    obtain ⟨df, n, fsf, hvl, hWf, hexf⟩ := validateList_ok_of_benign hW2
      (by simp [isObjV]) (fun e _ => benignAt_empty e.group) defaultEntries_side
    obtain ⟨hobj, hok, _, _, heffA, heffB⟩ :=
      validateList_props hvl defaultEntries_side defaultEntries_pairwise
    refine ⟨df, fsf, ?_, hWf, List.all_eq_true.mpr hok, hobj (by simp [isObjV]),
      ?_, ?_, ?_, ?_⟩
    · unfold load_file parseOrInit
      rw [hf]
      dsimp only
      rw [if_pos rfl, hvl]
    · intro q hq hqb
      rw [heffA q hq, hic, FS.setFile_files_ne _ _ _ _ hq]
    · rw [heffB, hic, FS.setFile_dirW]
    · intro w kvs hk
      cases hk
    · rcases hexf with hexf | rfl
      · exact hexf
      · simp [osPathExists, hic, FS.setFile_files_self]
  | file w c =>
    have hwt : w = true := hW.2 _ _ _ hf
    subst hwt
    cases c with
    | corrupt s =>
      have hbak : prefsPath ≠ prefsPath ++ ".bak" := ne_append_bak prefsPath
      have hic := init_config_prefs_corrupt hW hf
      have hW2 : FSW (init_config prefsPath fs) := by
        rw [hic]
        refine FSW_setFile (FSW_setFile (FSW_setFile hW _ _ ?_) _ _ ?_) _ _ ?_
        · intro w c hc; cases hc
        · intro w c hc; cases hc; rfl
        · intro w c hc; cases hc; rfl
      obtain ⟨df, n, fsf, hvl, hWf, hexf⟩ := validateList_ok_of_benign hW2
        (by simp [isObjV]) (fun e _ => benignAt_empty e.group) defaultEntries_side
      obtain ⟨hobj, hok, _, _, heffA, heffB⟩ :=
        validateList_props hvl defaultEntries_side defaultEntries_pairwise
      refine ⟨df, fsf, ?_, hWf, List.all_eq_true.mpr hok, hobj (by simp [isObjV]),
        ?_, ?_, ?_, ?_⟩
      · unfold load_file parseOrInit
        rw [hf]
        dsimp only
        rw [if_pos rfl, hvl]
      · intro q hq hqb
        rw [heffA q hq, hic, FS.setFile_files_ne _ _ _ _ hq,
          FS.setFile_files_ne _ _ _ _ hqb, FS.setFile_files_ne _ _ _ _ hq]
      · rw [heffB, hic, FS.setFile_dirW, FS.setFile_dirW, FS.setFile_dirW]
      · intro w kvs hk
        injection hk with h1 h2
        cases h2
      · rcases hexf with hexf | rfl
        · exact hexf
        · simp [osPathExists, hic, FS.setFile_files_self]
    | json v =>
      cases v with
      | obj kvs =>
        have hben : benignGroups (.obj kvs) = true := by
          have := hb
          rw [hf] at this
          exact this
        obtain ⟨df, n, fsf, hvl, hWf, hexf⟩ := validateList_ok_of_benign hW
          (by simp [isObjV])
          (fun e he => List.all_eq_true.mp hben e he) defaultEntries_side
        obtain ⟨hobj, hok, htop, _, heffA, heffB⟩ :=
          validateList_props hvl defaultEntries_side defaultEntries_pairwise
        refine ⟨df, fsf, ?_, hWf, List.all_eq_true.mpr hok, hobj (by simp [isObjV]),
          fun q hq _ => heffA q hq, heffB, ?_, ?_⟩
        · unfold load_file parseOrInit
          rw [hf]
          dsimp only
          rw [if_pos rfl, hvl]
        · intro w' kvs' hk g hcv hgs
          injection hk with h1 h2
          injection h2 with h2
          injection h2 with h2
          subst h2
          exact htop g hcv hgs
        · rcases hexf with hexf | rfl
          · exact hexf
          · simp [osPathExists, hf]
      | str s => rw [hf] at hb; simp [prefsBenignState] at hb
      | bool b => rw [hf] at hb; simp [prefsBenignState] at hb
      | int n => rw [hf] at hb; simp [prefsBenignState] at hb
      | list l => rw [hf] at hb; simp [prefsBenignState] at hb

/-! ## Concrete filesystems for scenario claims and witnesses -/

/-- A fully-writable filesystem holding an empty preferences document. -/
def fsScenario : FS :=
  { files := fun p => if p = prefsPath then .file true (.json (.obj [])) else .absent,
    dirW := fun _ => true }

/-- The preferences document produced by validating `{}`: all six defaults
plus the injected `config_version`. -/
def dW : Value :=
  .obj [("colours", .obj [("primary", .str "#00FF00"), ("secondary", .str "#FF0000")]),
        ("config_version", .int 7),
        ("effects", .obj [("live_preview", .bool true)]),
        ("general", .obj [("landing_tab", .str "devices")]),
        ("tray", .obj [("force_legacy_gtk_status", .bool false),
                       ("icon", .str "ui/img/tray/light/polychromatic.svg")])]

/-- The on-disk preferences document right after
`set("tray", "icon", "true")` on `fsScenario`: the coerced boolean is
stored. -/
def dAfterSet : Value :=
  .obj [("colours", .obj [("primary", .str "#00FF00"), ("secondary", .str "#FF0000")]),
        ("config_version", .int 7),
        ("effects", .obj [("live_preview", .bool true)]),
        ("general", .obj [("landing_tab", .str "devices")]),
        ("tray", .obj [("force_legacy_gtk_status", .bool false),
                       ("icon", .bool true)])]

/-- A fully-writable filesystem with a corrupt preferences file. -/
def fsC4p : FS :=
  { files := fun p => if p = prefsPath then .file true (.corrupt "garbage") else .absent,
    dirW := fun _ => true }

/-- A fully-writable filesystem with a corrupt colours file. -/
def fsC4w : FS :=
  { files := fun p => if p = coloursPath then .file true (.corrupt "oops") else .absent,
    dirW := fun _ => true }

/-- A preferences file written by newer software (`config_version = 8`). -/
def fsNewer : FS :=
  { files := fun p => if p = prefsPath then
      .file true (.json (.obj [("config_version", .int 8)])) else .absent,
    dirW := fun _ => true }

/-- A filesystem with a read-only file `a.json`, no `b.json`, and no
directory write permission anywhere. -/
def fsC5w : FS :=
  { files := fun p => if p = "a.json" then .file false (.json (.obj [])) else .absent,
    dirW := fun _ => false }

/-- A colours file holding `{"a": {"b": 1}}`. -/
def fsKV : FS :=
  { files := fun p => if p = coloursPath then
      .file true (.json (.obj [("a", .obj [("b", .int 1)])])) else .absent,
    dirW := fun _ => true }

/-! ## Claim C1 -/

/-- C1 (counterexample): on a writable filesystem with an empty preferences
document, `set("tray", "icon", "true")` followed by `get("tray", "icon")`
does not return the boolean `true` — it returns the schema default string —
so the claim "get returns boolean true" is false on this input. -/
theorem c1_counterexample :
    (Pref.get "tray" "icon" (.str "") none
      (Pref.set "tray" "icon" (.str "true") none fsScenario).2).1
      = .ok (.str "ui/img/tray/light/polychromatic.svg") ∧
    (Pref.get "tray" "icon" (.str "") none
      (Pref.set "tray" "icon" (.str "true") none fsScenario).2).1
      ≠ .ok (.bool true) :=
  ⟨by rfl, by decide⟩

/-- C1 (amended): `set("tray", "icon", "true")` does coerce the string and
stores the boolean `true` on disk, but the subsequent `get("tray", "icon")`
returns the schema default `"ui/img/tray/light/polychromatic.svg"`, because
`load_file`'s validation overwrites the now type-mismatched boolean with
the string default before `get` reads it. -/
theorem c1_set_then_get_returns_default :
    ((Pref.set "tray" "icon" (.str "true") none fsScenario).2.files prefsPath
      = .file true (.json dAfterSet) ∧
     getGK dAfterSet "tray" "icon" = .ok (.bool true)) ∧
    (Pref.get "tray" "icon" (.str "") none
      (Pref.set "tray" "icon" (.str "true") none fsScenario).2).1
      = .ok (.str "ui/img/tray/light/polychromatic.svg") :=
  ⟨⟨by rfl, by rfl⟩, by rfl⟩

/-! ## Claim C3 -/

/-- C3: when the stored `config_version` is an integer strictly greater
than the compiled-in version 7, `upgrade_old_pref` warns and returns with
the filesystem completely untouched — every file, including the preferences
and colours files, is byte-identical (the state is literally unchanged). -/
theorem c3_forward_guard (gtkResolve : Value → Value) (rgbToHex : Value → String)
    (fs : FS) (w : Bool) (d : Value) (v : Int)
    (hf : fs.files prefsPath = .file w (.json d))
    (hcv : pyGetItem d "config_version" = .ok (.int v))
    (hv : 7 < v) :
    upgrade_old_pref gtkResolve rgbToHex fs = (.ok (), fs) := by
  unfold upgrade_old_pref upgrade_read_version
  rw [hf]
  dsimp only
  rw [hcv]
  dsimp only [pyToInt]
  rw [if_neg (show ¬ (version = v) by unfold version; omega)]
  rw [if_pos (show v > version by unfold version; omega)]

/-- C3 (witness): the guard at the concrete version-8 preferences file. -/
theorem c3_witness :
    upgrade_old_pref (fun v => v) (fun _ => "") fsNewer = (.ok (), fsNewer) :=
  c3_forward_guard (fun v => v) (fun _ => "") fsNewer true
    (.obj [("config_version", .int 8)]) 8 (by rfl) (by rfl) (by decide)

/-! ## Claim C4 -/

/-- C4 (counterexample): for the preferences path, loading a corrupt file
does not return an empty document — validation fills in the six defaults
(and the recreated file is likewise not empty) — so the claim quantified
over every file path is false at the preferences path. -/
theorem c4_counterexample :
    (load_file prefsPath fsC4p).1 = .ok dW ∧ dW ≠ .obj [] :=
  ⟨by rfl, by decide⟩

/-- C4 (amended): for every path other than the preferences path whose
content is unparsable, `load_file` returns the empty document without
propagating the parse error, preserves the original content at the `.bak`
suffix (overwriting any prior backup), and leaves a serialized empty
document at the original path — provided the directory permits the rename
and the recreate. -/
theorem c4_corruption_recovery (fp : String) (fs : FS) (w : Bool) (s : String)
    (hfp : fp ≠ prefsPath) (hf : fs.files fp = .file w (.corrupt s))
    (hdw : fs.dirW fp = true) (hdwb : fs.dirW (fp ++ ".bak") = true) :
    ∃ fs', load_file fp fs = (.ok (.obj []), fs') ∧
      fs'.files (fp ++ ".bak") = .file w (.corrupt s) ∧
      fs'.files fp = .file true (.json (.obj [])) := by
  refine ⟨_, load_file_other_corrupt hfp hf hdw hdwb, ?_, ?_⟩
  · rw [FS.setFile_files_ne _ _ _ _ (Ne.symm (ne_append_bak fp)),
      FS.setFile_files_self]
  · rw [FS.setFile_files_self]

/-- C4 (witness): corruption recovery on a concrete corrupt colours file. -/
theorem c4_witness :
    ∃ fs', load_file coloursPath fsC4w = (.ok (.obj []), fs') ∧
      fs'.files (coloursPath ++ ".bak") = .file true (.corrupt "oops") ∧
      fs'.files coloursPath = .file true (.json (.obj [])) :=
  c4_corruption_recovery coloursPath fsC4w true "oops" (by decide) (by rfl) (by rfl)
    (by rfl)

/-! ## Claim C5 -/

/-- C5 (counterexample): when the target file does not exist and the
directory is not writable, `save_file` raises a permission error instead of
returning `false` — the claim "never raises for a write-permission failure,
including when the target must be created" is false on this input. -/
theorem c5_counterexample :
    (save_file "b.json" (.obj []) fsC5w).1 = .error .permissionError ∧
    (save_file "b.json" (.obj []) fsC5w).1 ≠ .ok (false, .obj []) :=
  ⟨by rfl, by decide⟩

/-- C5 (amended): for an existing non-writable target, `save_file` returns
`false` without touching the filesystem and without raising; but when the
target does not exist and its directory forbids creation, the creation
attempt raises a permission error that propagates to the caller. -/
theorem c5_save_permissions (fp : String) (kvs : List (String × Value)) (fs : FS) :
    (∀ c, fs.files fp = .file false c →
      save_file fp (.obj kvs) fs =
        (.ok (false, if fp = prefsPath then
            .obj (setKV kvs "config_version" (.int version)) else .obj kvs), fs)) ∧
    (fs.files fp = .absent → fs.dirW fp = false →
      save_file fp (.obj kvs) fs = (.error .permissionError, fs)) := by
  constructor
  · intro c hf
    unfold save_file
    have hex : osPathExists fs fp = true := by simp [osPathExists, hf]
    have hacc : osAccessW fs fp = false := by simp [osAccessW, hf]
    by_cases hp : fp = prefsPath
    · subst hp
      simp [pySetItem, hex, hacc]
    · simp [hp, pySetItem, hex, hacc]
  · intro hf hdw
    unfold save_file osCreate
    have hex : osPathExists fs fp = false := by simp [osPathExists, hf]
    by_cases hp : fp = prefsPath
    · subst hp
      simp [pySetItem, hex, hdw]
    · simp [hp, pySetItem, hex, hdw]

/-- C5 (witness): both permission behaviours on a concrete read-only
filesystem: the existing read-only `a.json` yields `false` unraised, the
uncreatable `b.json` raises. -/
theorem c5_witness :
    save_file "a.json" (.obj []) fsC5w
      = (.ok (false, if "a.json" = prefsPath then
          .obj (setKV [] "config_version" (.int version)) else .obj []), fsC5w) ∧
    save_file "b.json" (.obj []) fsC5w = (.error .permissionError, fsC5w) :=
  ⟨(c5_save_permissions "a.json" [] fsC5w).1 (.json (.obj [])) (by rfl),
   (c5_save_permissions "b.json" [] fsC5w).2 (by rfl) (by rfl)⟩

/-! ## Claim C6 -/

/-- C6: `get(group, item, default_value)` never applies its `default_value`
argument — any two defaults give identical results — and it returns exactly
`data[group][item]` of the loaded document, propagating the lookup error
when the group or key is absent. -/
theorem c6_get_ignores_default (group item : String) (d1 d2 : Value)
    (fp : Option String) (fs : FS) :
    Pref.get group item d1 fp fs = Pref.get group item d2 fp fs ∧
    (∀ data fs' v, load_file (fp.getD prefsPath) fs = (.ok data, fs') →
      getGK data group item = .ok v →
      Pref.get group item d1 fp fs = (.ok v, fs')) ∧
    (∀ data fs' err, load_file (fp.getD prefsPath) fs = (.ok data, fs') →
      getGK data group item = .error err →
      Pref.get group item d1 fp fs = (.error err, fs')) := by
  refine ⟨rfl, ?_, ?_⟩
  · intro data fs' v hl hg
    unfold Pref.get
    dsimp only
    rw [hl]
    dsimp only
    rw [hg]
  · intro data fs' err hl hg
    unfold Pref.get
    dsimp only
    rw [hl]
    dsimp only
    rw [hg]

/-- C6 (witness): on a concrete colours document `{"a": {"b": 1}}`, `get`
returns the same value for two different defaults, the stored value for a
present key, and a KeyError for an absent key. -/
theorem c6_witness :
    Pref.get "a" "b" (.str "fallback") (some coloursPath) fsKV
      = Pref.get "a" "b" (.int 99) (some coloursPath) fsKV ∧
    Pref.get "a" "b" (.str "fallback") (some coloursPath) fsKV = (.ok (.int 1), fsKV) ∧
    Pref.get "a" "zz" (.str "fallback") (some coloursPath) fsKV
      = (.error .keyError, fsKV) :=
  ⟨(c6_get_ignores_default "a" "b" (.str "fallback") (.int 99) (some coloursPath) fsKV).1,
   (c6_get_ignores_default "a" "b" (.str "fallback") (.int 99) (some coloursPath)
     fsKV).2.1 (.obj [("a", .obj [("b", .int 1)])]) fsKV (.int 1) (by rfl) (by rfl),
   (c6_get_ignores_default "a" "zz" (.str "fallback") (.int 99) (some coloursPath)
     fsKV).2.2 (.obj [("a", .obj [("b", .int 1)])]) fsKV .keyError (by rfl) (by rfl)⟩

/-! ## Claim C8 -/

/-- C8: schema validation is idempotent — whenever one validate-and-repair
pass over the six default entries succeeds, a second pass over its output
document returns that document unchanged, performs zero saves, and leaves
the filesystem untouched. -/
theorem c8_validate_idempotent (d d1 : Value) (n : Nat) (fs fs1 : FS)
    (h : validateList defaultEntries d fs = (.ok (d1, n), fs1)) :
    validateList defaultEntries d1 fs1 = (.ok (d1, 0), fs1) := by
  obtain ⟨_, hok, _, _, _, _⟩ :=
    validateList_props h defaultEntries_side defaultEntries_pairwise
  exact validateList_of_allOk defaultEntries fs1 hok

/-- C8 (witness): idempotence after repairing the empty document (six
repairs on the first pass, none on the second). -/
theorem c8_witness :
    validateList defaultEntries dW (validateList defaultEntries (.obj []) fsScenario).2
      = (.ok (dW, 0), (validateList defaultEntries (.obj []) fsScenario).2) :=
  c8_validate_idempotent (.obj []) dW 6 fsScenario
    (validateList defaultEntries (.obj []) fsScenario).2 (by rfl)

/-! ## Claim C9 -/

/-- C9: `save_file` on the preferences path mutates the caller's in-memory
document itself: the returned (caller-visible) dict always carries
`config_version = 7`, overwriting any value the caller had set; for any
other path the dict is returned unmodified. -/
theorem c9_save_mutates_argument (kvs : List (String × Value)) (fs : FS) :
    (∀ b d' fs', save_file prefsPath (.obj kvs) fs = (.ok (b, d'), fs') →
      d' = .obj (setKV kvs "config_version" (.int version)) ∧
      pyGetItem d' "config_version" = .ok (.int version)) ∧
    (∀ fp, fp ≠ prefsPath → ∀ b d' fs',
      save_file fp (.obj kvs) fs = (.ok (b, d'), fs') → d' = .obj kvs) := by
  constructor
  · intro b d' fs' h
    obtain ⟨hpref, _, _, _⟩ := save_file_ok_elim h
    obtain ⟨kvs', hk, hd'⟩ := hpref rfl
    injection hk with hk
    subst hk
    refine ⟨hd', ?_⟩
    rw [hd']
    simp [pyGetItem, lookupKV_setKV_self]
  · intro fp hfp b d' fs' h
    exact (save_file_ok_elim h).2.1 hfp

/-- C9 (witness): saving a document that carries `config_version = 3` to
the preferences path overwrites it with 7 in the caller's dict; saving the
same dict to the colours path leaves it untouched. -/
theorem c9_witness :
    (Value.obj [("config_version", .int 7)]
        = .obj (setKV [("config_version", .int 3)] "config_version" (.int version)) ∧
      pyGetItem (.obj [("config_version", .int 7)]) "config_version"
        = .ok (.int version)) ∧
    Value.obj [("config_version", .int 3)] = .obj [("config_version", .int 3)] :=
  ⟨(c9_save_mutates_argument [("config_version", .int 3)] fsScenario).1 true
      (.obj [("config_version", .int 7)])
      ((save_file prefsPath (.obj [("config_version", .int 3)]) fsScenario).2) (by rfl),
   (c9_save_mutates_argument [("config_version", .int 3)] fsScenario).2 coloursPath
      (by decide) true (.obj [("config_version", .int 3)])
      ((save_file coloursPath (.obj [("config_version", .int 3)]) fsScenario).2)
      (by rfl)⟩

/-! ## Claim C10 -/

theorem entryOk_elim {d : Value} {e : DefaultEntry} (h : entryOk d e = true) :
    ∃ v, getGK d e.group e.item = .ok v ∧ typeMatches e.dataType v = true := by
  unfold entryOk at h
  cases hGK : getGK d e.group e.item with
  | error err => rw [hGK] at h; simp at h
  | ok v =>
    rw [hGK] at h
    exact ⟨v, rfl, h⟩

/-- A preferences file whose JSON content is a list, not a dict. -/
def fsC10 : FS :=
  { files := fun p => if p = prefsPath then .file true (.json (.list [])) else .absent,
    dirW := fun _ => true }

/-- A fully-writable filesystem with no files at all. -/
def fsEmptyW : FS := { files := fun _ => .absent, dirW := fun _ => true }

/-- C10 (counterexample): when the preferences file holds JSON that is not
a dict (here a list), `load_file` raises a TypeError instead of returning a
document with the six defaults, and `exists` propagates the exception
instead of returning a boolean — so the claim quantified over "any JSON
content" is false. -/
theorem c10_counterexample :
    (load_file prefsPath fsC10).1 = .error .typeError ∧
    (Pref.«exists» "colours" "primary" none fsC10).1 = .error .typeError :=
  ⟨by rfl, by rfl⟩

/-- C10 (amended): on a writable filesystem, for every preferences-file
state that is absent, corrupt, or a JSON dict whose validated groups (when
present) are dicts, `load_file` succeeds and its document holds all six
default (group, key) pairs with values of the expected types; consequently
`exists` returns true and `get` succeeds with a well-typed value for each
of the six pairs. -/
theorem c10_defaults_invariant (fs : FS) (hW : FSW fs)
    (hb : prefsBenignState (fs.files prefsPath) = true) :
    ∃ df fsf, load_file prefsPath fs = (.ok df, fsf) ∧
      (∀ e ∈ defaultEntries, ∃ v, getGK df e.group e.item = .ok v ∧
        typeMatches e.dataType v = true) ∧
      (∀ e ∈ defaultEntries, (Pref.«exists» e.group e.item none fs).1 = .ok true) ∧
      (∀ e ∈ defaultEntries, ∃ v,
        (Pref.get e.group e.item (.str "") none fs).1 = .ok v ∧
        typeMatches e.dataType v = true) := by
  obtain ⟨df, fsf, hl, hWf, hok, hobj, _, _, _, _⟩ := load_file_prefs_ok hW hb
  have hentry : ∀ e ∈ defaultEntries, entryOk df e = true :=
    fun e he => List.all_eq_true.mp hok e he
  refine ⟨df, fsf, hl, fun e he => entryOk_elim (hentry e he), ?_, ?_⟩
  · intro e he
    obtain ⟨v, hg, _⟩ := entryOk_elim (hentry e he)
    unfold Pref.«exists»
    dsimp only
    rw [show (none : Option String).getD prefsPath = prefsPath from rfl, hl]
    dsimp only
    rw [hg]
  · intro e he
    obtain ⟨v, hg, hty⟩ := entryOk_elim (hentry e he)
    refine ⟨v, ?_, hty⟩
    unfold Pref.get
    dsimp only
    rw [show (none : Option String).getD prefsPath = prefsPath from rfl, hl]
    dsimp only
    rw [hg]

/-- C10 (witness): the invariant starting from a wholly absent preferences
file on a writable filesystem. -/
theorem c10_witness :
    ∃ df fsf, load_file prefsPath fsEmptyW = (.ok df, fsf) ∧
      (∀ e ∈ defaultEntries, ∃ v, getGK df e.group e.item = .ok v ∧
        typeMatches e.dataType v = true) ∧
      (∀ e ∈ defaultEntries, (Pref.«exists» e.group e.item none fsEmptyW).1 = .ok true) ∧
      (∀ e ∈ defaultEntries, ∃ v,
        (Pref.get e.group e.item (.str "") none fsEmptyW).1 = .ok v ∧
        typeMatches e.dataType v = true) :=
  c10_defaults_invariant fsEmptyW ⟨fun _ => rfl, fun _ _ _ h => nomatch h⟩ (by rfl)

/-! ## Sorting and colours-migration lemmas -/

theorem strLtB_asymm : ∀ as bs : List Char, strLtB as bs = true → strLtB bs as = false
  | _, [], h => by simp [strLtB] at h
  | [], _ :: _, _ => rfl
  | a :: as, b :: bs, h => by
    unfold strLtB at h ⊢
    by_cases hab : a.toNat < b.toNat
    · rw [if_neg (Nat.lt_asymm hab), if_pos hab]
    · rw [if_neg hab] at h
      by_cases hba : b.toNat < a.toNat
      · rw [if_pos hba] at h
        cases h
      · rw [if_neg hba] at h
        rw [if_neg hba, if_neg hab]
        exact strLtB_asymm as bs h

theorem mem_insertAsc {a s : String} {l : List String} :
    a ∈ insertAsc s l ↔ a = s ∨ a ∈ l := by
  induction l with
  | nil => simp [insertAsc]
  | cons t ts ih =>
    unfold insertAsc
    by_cases h : strLtB s.data t.data = true
    · simp [h]
    · rw [if_neg h]
      simp only [List.mem_cons, ih]
      tauto

theorem insertAsc_perm (s : String) (l : List String) :
    (insertAsc s l).Perm (s :: l) := by
  induction l with
  | nil => exact List.Perm.refl _
  | cons t ts ih =>
    unfold insertAsc
    by_cases h : strLtB s.data t.data = true
    · rw [if_pos h]
    · rw [if_neg h]
      exact (ih.cons t).trans (List.Perm.swap s t ts)

theorem sortStrings_perm (l : List String) : (sortStrings l).Perm l := by
  induction l with
  | nil => exact List.Perm.refl _
  | cons t ts ih =>
    have : sortStrings (t :: ts) = insertAsc t (sortStrings ts) := rfl
    rw [this]
    exact (insertAsc_perm t (sortStrings ts)).trans (ih.cons t)

theorem mem_sortStrings {a : String} {l : List String} :
    a ∈ sortStrings l ↔ a ∈ l :=
  (sortStrings_perm l).mem_iff

theorem chain_insertAsc {s : String} {l : List String}
    (h : List.Chain' strOrdered l) : List.Chain' strOrdered (insertAsc s l) := by
  induction l with
  | nil => simp [insertAsc]
  | cons t ts ih =>
    unfold insertAsc
    rw [List.chain'_cons'] at h
    by_cases hlt : strLtB s.data t.data = true
    · rw [if_pos hlt, List.chain'_cons]
      exact ⟨strLtB_asymm _ _ hlt, List.chain'_cons'.mpr h⟩
    · rw [if_neg hlt]
      rw [List.chain'_cons']
      refine ⟨?_, ih h.2⟩
      intro y hy
      cases ts with
      | nil =>
        simp [insertAsc] at hy
        subst hy
        exact Bool.eq_false_iff.mpr hlt
      | cons u us =>
        unfold insertAsc at hy
        by_cases hsu : strLtB s.data u.data = true
        · rw [if_pos hsu] at hy
          simp at hy
          subst hy
          exact Bool.eq_false_iff.mpr hlt
        · rw [if_neg hsu] at hy
          simp at hy
          subst hy
          exact h.1 u rfl

theorem sortStrings_sorted (l : List String) :
    List.Chain' strOrdered (sortStrings l) := by
  induction l with
  | nil => simp [sortStrings]
  | cons t ts ih => exact chain_insertAsc ih

theorem lookupKV_mem {kvs : List (String × Value)} {k : String} {v : Value}
    (h : lookupKV kvs k = some v) : (k, v) ∈ kvs := by
  induction kvs with
  | nil => cases h
  | cons p ps ih =>
    obtain ⟨k', w⟩ := p
    unfold lookupKV at h
    by_cases hk : k' = k
    · rw [if_pos hk] at h
      injection h with h
      subst hk h
      exact List.mem_cons_self _ _
    · rw [if_neg hk] at h
      exact List.mem_cons_of_mem _ (ih h)

theorem mem_keys_lookup {kvs : List (String × Value)} {k : String}
    (h : k ∈ kvs.map Prod.fst) : ∃ v, lookupKV kvs k = some v := by
  induction kvs with
  | nil => simp at h
  | cons p ps ih =>
    obtain ⟨k', w⟩ := p
    by_cases hk : k' = k
    · exact ⟨w, by simp [lookupKV, hk]⟩
    · simp only [List.map_cons, List.mem_cons] at h
      rcases h with h | h
      · exact absurd h.symm hk
      · obtain ⟨v, hv⟩ := ih h
        exact ⟨v, by simp [lookupKV, hk, hv]⟩

theorem buildColours_ok (rgbToHex : Value → String) (kvs : List (String × Value)) :
    ∀ ids : List String,
    (∀ id ∈ ids, ∃ e nm cl, lookupKV kvs id = some e ∧
      pyGetItem e "name" = .ok nm ∧ pyGetItem e "col" = .ok cl) →
    ∃ lst, buildColours rgbToHex (.obj kvs) ids = .ok lst ∧
      List.Forall₂ (fun id rec => ∃ e nm cl, lookupKV kvs id = some e ∧
        pyGetItem e "name" = .ok nm ∧ pyGetItem e "col" = .ok cl ∧
        rec = .obj [("name", nm), ("hex", .str (rgbToHex cl))]) ids lst := by
  intro ids
  induction ids with
  | nil => exact fun _ => ⟨[], rfl, List.Forall₂.nil⟩
  | cons id ids ih =>
    intro h
    obtain ⟨e, nm, cl, hl, hnm, hcl⟩ := h id (by simp)
    obtain ⟨lst, hb, hfa⟩ := ih (fun i hi => h i (by simp [hi]))
    refine ⟨.obj [("name", nm), ("hex", .str (rgbToHex cl))] :: lst, ?_,
      List.Forall₂.cons ⟨e, nm, cl, hl, hnm, hcl, rfl⟩ hfa⟩
    unfold buildColours
    rw [show pyGetItem (Value.obj kvs) id = .ok e by simp [pyGetItem, hl]]
    dsimp only [bind, Except.bind]
    rw [hnm]
    dsimp only
    rw [hcl]
    dsimp only
    rw [hb]

/-- The shapes of the colours file under which the `<7` colours migration
is proven not to raise: absent, corrupt, a list, or a dict of records each
holding a `name` and a `col`. -/
def benignColoursState : FileState → Bool
  | .absent => true
  | .file _ (.corrupt _) => true
  | .file _ (.json (.list _)) => true
  | .file _ (.json (.obj kvs)) =>
    kvs.all (fun p => match p.2 with
      | .obj ekvs => (lookupKV ekvs "name").isSome && (lookupKV ekvs "col").isSome
      | _ => false)
  | .file _ (.json _) => false

theorem benignColours_entries {kvs : List (String × Value)}
    (h : kvs.all (fun p => match p.2 with
      | .obj ekvs => (lookupKV ekvs "name").isSome && (lookupKV ekvs "col").isSome
      | _ => false) = true) :
    ∀ id ∈ sortStrings (kvs.map Prod.fst), ∃ e nm cl, lookupKV kvs id = some e ∧
      pyGetItem e "name" = .ok nm ∧ pyGetItem e "col" = .ok cl := by
  intro id hid
  obtain ⟨e, he⟩ := mem_keys_lookup (mem_sortStrings.mp hid)
  have hmem := lookupKV_mem he
  have hp := List.all_eq_true.mp h _ hmem
  cases e with
  | obj ekvs =>
    simp only [Bool.and_eq_true, Option.isSome_iff_exists] at hp
    obtain ⟨⟨nm, hnm⟩, cl, hcl⟩ := hp
    exact ⟨.obj ekvs, nm, cl, he, by simp [pyGetItem, hnm], by simp [pyGetItem, hcl]⟩
  | str s => simp at hp
  | bool b => simp at hp
  | int n => simp at hp
  | list l => simp at hp

theorem migrate_colours_spec (rgbToHex : Value → String) {fs : FS} (hW : FSW fs)
    (hb : benignColoursState (fs.files coloursPath) = true) :
    ∃ fsf, migrate_colours rgbToHex fs = (.ok (), fsf) ∧ FSW fsf ∧
      (∀ q, q ≠ coloursPath → q ≠ coloursPath ++ ".bak" → fsf.files q = fs.files q) ∧
      fsf.dirW = fs.dirW := by
  have hcp : coloursPath ≠ prefsPath := by decide
  cases hf : fs.files coloursPath with
  | absent =>
    have hl := load_file_other_absent hcp hf (hW.1 coloursPath)
    have hW1 : FSW (fs.setFile coloursPath (.file true (.json (.obj [])))) :=
      FSW_setFile hW _ _ (by intro w c hc; cases hc; rfl)
    unfold migrate_colours
    rw [hl]
    dsimp only
    rw [show pyEq (.obj []) old_colour_json = false from rfl, if_neg Bool.false_ne_true]
    rw [show buildColours rgbToHex (Value.obj [])
        (sortStrings (List.map Prod.fst [])) = .ok [] from rfl]
    dsimp only
    rw [save_file_other_ok (.list []) hcp hW1]
    refine ⟨_, rfl, FSW_setFile hW1 _ _ (by intro w c hc; cases hc; rfl), ?_, rfl⟩
    intro q hq _
    rw [FS.setFile_files_ne _ _ _ _ hq, FS.setFile_files_ne _ _ _ _ hq]
  | file w c =>
    have hwt : w = true := hW.2 _ _ _ hf
    subst hwt
    cases c with
    | corrupt s =>
      have hl := load_file_other_corrupt hcp hf (hW.1 coloursPath)
        (hW.1 (coloursPath ++ ".bak"))
      have hW1 : FSW (((fs.setFile coloursPath .absent).setFile (coloursPath ++ ".bak")
          (.file true (.corrupt s))).setFile coloursPath
          (.file true (.json (.obj [])))) := by
        refine FSW_setFile (FSW_setFile (FSW_setFile hW _ _ ?_) _ _ ?_) _ _ ?_
        · intro w c hc; cases hc
        · intro w c hc; cases hc; rfl
        · intro w c hc; cases hc; rfl
      unfold migrate_colours
      rw [hl]
      dsimp only
      rw [show pyEq (.obj []) old_colour_json = false from rfl,
        if_neg Bool.false_ne_true]
      rw [show buildColours rgbToHex (Value.obj [])
          (sortStrings (List.map Prod.fst [])) = .ok [] from rfl]
      dsimp only
      rw [save_file_other_ok (.list []) hcp hW1]
      refine ⟨_, rfl, FSW_setFile hW1 _ _ (by intro w c hc; cases hc; rfl), ?_, rfl⟩
      intro q hq hqb
      rw [FS.setFile_files_ne _ _ _ _ hq, FS.setFile_files_ne _ _ _ _ hq,
        FS.setFile_files_ne _ _ _ _ hqb, FS.setFile_files_ne _ _ _ _ hq]
    | json v =>
      cases v with
      | list xs =>
        have hl := load_file_other_json hcp hf
        unfold migrate_colours
        rw [hl]
        dsimp only
        rw [show pyEq (.list xs) old_colour_json = false from rfl,
          if_neg Bool.false_ne_true]
        exact ⟨fs, rfl, hW, fun q _ _ => rfl, rfl⟩
      | obj kvs =>
        have hl := load_file_other_json hcp hf
        have hents : kvs.all (fun p => match p.2 with
            | .obj ekvs => (lookupKV ekvs "name").isSome && (lookupKV ekvs "col").isSome
            | _ => false) = true := by
          have := hb
          rw [hf] at this
          exact this
        unfold migrate_colours
        rw [hl]
        dsimp only
        by_cases hpe : pyEq (.obj kvs) old_colour_json = true
        · rw [if_pos hpe]
          rw [show osRemoveE fs coloursPath = .ok (fs.setFile coloursPath .absent) by
            unfold osRemoveE
            rw [hf]
            simp [hW.1 coloursPath]]
          refine ⟨_, rfl, FSW_setFile hW _ _ (by intro w c hc; cases hc), ?_, rfl⟩
          intro q hq _
          rw [FS.setFile_files_ne _ _ _ _ hq]
        · rw [if_neg hpe]
          obtain ⟨lst, hbc, _⟩ := buildColours_ok rgbToHex kvs
            (sortStrings (kvs.map Prod.fst)) (benignColours_entries hents)
          rw [hbc]
          dsimp only
          rw [save_file_other_ok (.list lst) hcp hW]
          refine ⟨_, rfl, FSW_setFile hW _ _ (by intro w c hc; cases hc; rfl), ?_, rfl⟩
          intro q hq _
          rw [FS.setFile_files_ne _ _ _ _ hq]
      | str s =>
        rw [hf] at hb
        simp [benignColoursState] at hb
      | bool b =>
        rw [hf] at hb
        simp [benignColoursState] at hb
      | int n =>
        rw [hf] at hb
        simp [benignColoursState] at hb

/-! ## Claim C7 -/

/-- A fully-writable filesystem whose colours file is a legacy mapping with
the IDs "10" and "2"; string sort puts "10" first, numeric sort would put
"2" first. -/
def fsC7 : FS :=
  { files := fun p => if p = coloursPath then
      .file true (.json (.obj
        [("10", .obj [("name", .str "A"), ("col", .list [.int 0, .int 0, .int 0])]),
         ("2", .obj [("name", .str "B"), ("col", .list [.int 1, .int 1, .int 1])])]))
    else .absent,
    dirW := fun _ => true }

/-- C7 (counterexample): on a legacy colours mapping with IDs "10" and "2",
the code emits the entry with ID "10" first (lexicographic string sort),
whereas sorting the numeric-string IDs ascending by numeric value would
put ID "2" (the record named "B") first — so the claimed ordering is false
on this input. -/
theorem c7_counterexample :
    (migrate_colours (fun _ => "#0A0A0A") fsC7).2.files coloursPath
      = .file true (.json (.list
          [.obj [("name", .str "A"), ("hex", .str "#0A0A0A")],
           .obj [("name", .str "B"), ("hex", .str "#0A0A0A")]])) ∧
    (Value.list [.obj [("name", .str "A"), ("hex", .str "#0A0A0A")],
                 .obj [("name", .str "B"), ("hex", .str "#0A0A0A")]])
      ≠ .list [.obj [("name", .str "B"), ("hex", .str "#0A0A0A")],
               .obj [("name", .str "A"), ("hex", .str "#0A0A0A")]] :=
  ⟨by rfl, by decide⟩

/-- C7 (amended): a colours document still in legacy mapping form (and not
equal to the fixed legacy palette) is converted by sorting its IDs in
ascending lexicographic string order (Python's `list.sort()` on strings,
which agrees with numeric order only for equal-length IDs) and producing,
for each entry in that order, the record `{name, hex}` with `hex` derived
from the legacy `col` triple by the injected converter; the colours file is
overwritten with this ordered list. -/
theorem c7_colours_migration (rgbToHex : Value → String) (fs : FS)
    (kvs : List (String × Value)) (hW : FSW fs)
    (hf : fs.files coloursPath = .file true (.json (.obj kvs)))
    (hne : pyEq (.obj kvs) old_colour_json = false)
    (hents : kvs.all (fun p => match p.2 with
      | .obj ekvs => (lookupKV ekvs "name").isSome && (lookupKV ekvs "col").isSome
      | _ => false) = true) :
    ∃ lst fsf, migrate_colours rgbToHex fs = (.ok (), fsf) ∧
      fsf.files coloursPath = .file true (.json (.list lst)) ∧
      List.Forall₂ (fun id rec => ∃ e nm cl, lookupKV kvs id = some e ∧
        pyGetItem e "name" = .ok nm ∧ pyGetItem e "col" = .ok cl ∧
        rec = .obj [("name", nm), ("hex", .str (rgbToHex cl))])
        (sortStrings (kvs.map Prod.fst)) lst ∧
      (sortStrings (kvs.map Prod.fst)).Perm (kvs.map Prod.fst) ∧
      List.Chain' strOrdered (sortStrings (kvs.map Prod.fst)) := by
  have hcp : coloursPath ≠ prefsPath := by decide
  have hl := load_file_other_json hcp hf
  obtain ⟨lst, hbc, hfa⟩ := buildColours_ok rgbToHex kvs
    (sortStrings (kvs.map Prod.fst)) (benignColours_entries hents)
  refine ⟨lst, fs.setFile coloursPath (.file true (.json (.list lst))), ?_, ?_, hfa,
    sortStrings_perm _, sortStrings_sorted _⟩
  · unfold migrate_colours
    rw [hl]
    dsimp only
    rw [hne, if_neg Bool.false_ne_true]
    rw [hbc]
    dsimp only
    rw [save_file_other_ok (.list lst) hcp hW]
  · rw [FS.setFile_files_self]

/-- C7 (witness): the lexicographic conversion on a concrete two-entry
legacy mapping. -/
theorem c7_witness :
    ∃ lst fsf, migrate_colours (fun _ => "#0A0A0A") fsC7 = (.ok (), fsf) ∧
      fsf.files coloursPath = .file true (.json (.list lst)) ∧
      List.Forall₂ (fun id rec => ∃ e nm cl,
        lookupKV [("10", Value.obj [("name", .str "A"),
                    ("col", .list [.int 0, .int 0, .int 0])]),
                  ("2", Value.obj [("name", .str "B"),
                    ("col", .list [.int 1, .int 1, .int 1])])] id = some e ∧
        pyGetItem e "name" = .ok nm ∧ pyGetItem e "col" = .ok cl ∧
        rec = .obj [("name", nm), ("hex", .str "#0A0A0A")])
        (sortStrings [ "10", "2" ]) lst ∧
      (sortStrings [ "10", "2" ]).Perm ["10", "2"] ∧
      List.Chain' strOrdered (sortStrings [ "10", "2" ]) := by
  have := c7_colours_migration (fun _ => "#0A0A0A") fsC7
    [("10", .obj [("name", .str "A"), ("col", .list [.int 0, .int 0, .int 0])]),
     ("2", .obj [("name", .str "B"), ("col", .list [.int 1, .int 1, .int 1])])]
    ⟨fun _ => rfl, fun p w c h => by
      by_cases hp : p = coloursPath <;> simp [fsC7, hp] at h <;> simp [h.1]⟩
    (by rfl) (by decide) (by decide)
  simpa using this

/-! ## Migration-step lemmas for the full `upgrade_old_pref` run -/

/-- The `tray_icon` shapes under which `trayIconFromOld`'s `except KeyError`
handlers cover every exception it can raise. -/
def benignTrayIcon (d : Value) : Bool :=
  isObjV d && (match topVal d "tray_icon" with
    | none => true
    | some (.obj tkvs) =>
      (match lookupKV tkvs "type" with
       | some t =>
         if pyEq t (.str "builtin") then
           match lookupKV tkvs "value" with
           | some (.list _) => false
           | some (.obj _) => false
           | _ => true
         else true
       | none => true)
    | some _ => false)

/-- The preferences-document shapes under which a full migration run is
proven not to raise: validated groups, `editor` and `tray_icon` are dicts
when present, and a `builtin` tray icon has a hashable value. -/
def benignPrefsDoc (d : Value) : Bool :=
  benignGroups d && benignAt d "editor" && benignTrayIcon d

theorem isObjV_elim {d : Value} (h : isObjV d = true) : ∃ kvs, d = .obj kvs := by
  cases d with
  | obj kvs => exact ⟨kvs, rfl⟩
  | str s => simp [isObjV] at h
  | bool b => simp [isObjV] at h
  | int n => simp [isObjV] at h
  | list l => simp [isObjV] at h

theorem benignTrayIcon_pres {d d' : Value} (h1 : isObjV d = true)
    (h2 : isObjV d' = true) (ht : topVal d' "tray_icon" = topVal d "tray_icon")
    (hb : benignTrayIcon d = true) : benignTrayIcon d' = true := by
  unfold benignTrayIcon at hb ⊢
  rw [h2, ht]
  rw [h1] at hb
  exact hb

theorem benignGroups_of_allOk {d : Value} (hobj : isObjV d = true)
    (h : allEntriesOk d = true) : benignGroups d = true := by
  unfold benignGroups
  rw [List.all_eq_true]
  intro e he
  exact benignAt_of_entryOk (List.all_eq_true.mp h e he)

theorem benignGroups_of_topvals {d d' : Value} (h1 : isObjV d = true)
    (h2 : isObjV d' = true)
    (hpres : ∀ e ∈ defaultEntries, topVal d' e.group = topVal d e.group)
    (hb : benignGroups d = true) : benignGroups d' = true := by
  unfold benignGroups at hb ⊢
  rw [List.all_eq_true] at hb ⊢
  intro e he
  rw [benignAt_congr e.group h1 h2 (hpres e he)]
  exact hb e he

theorem topVal_setKV_ne {kvs : List (String × Value)} (k g : String) (v : Value)
    (hg : g ≠ k) : topVal (.obj (setKV kvs k v)) g = topVal (.obj kvs) g := by
  simp [topVal, lookupKV_setKV_ne _ _ _ _ hg]

theorem trayIconFromOld_ok (gtkResolve : Value → Value) {kvs : List (String × Value)}
    (hb : benignTrayIcon (.obj kvs) = true) :
    ∃ v, trayIconFromOld gtkResolve (.obj kvs) = .ok v := by
  unfold benignTrayIcon at hb
  simp only [isObjV, Bool.true_and, topVal] at hb
  unfold trayIconFromOld
  cases ht : lookupKV kvs "tray_icon" with
  | none =>
    rw [getGK_eq_of_top_none _ ht]
    exact ⟨.str "", rfl⟩
  | some tv =>
    rw [ht] at hb
    cases tv with
    | obj tkvs =>
      have hb2 : (match lookupKV tkvs "type" with
          | some t =>
            if pyEq t (Value.str "builtin") = true then
              match lookupKV tkvs "value" with
              | some (.list _) => false
              | some (.obj _) => false
              | _ => true
            else true
          | none => true) = true := hb
      cases htt : lookupKV tkvs "type" with
      | none =>
        rw [getGK_eq_of_top "type" ht, htt]
        exact ⟨.str "", rfl⟩
      | some t =>
        rw [getGK_eq_of_top "type" ht, htt]
        dsimp only
        rw [htt] at hb2
        by_cases hgtk : pyEq t (.str "gtk") = true
        · rw [if_pos hgtk]
          cases htv : lookupKV tkvs "value" with
          | none =>
            rw [getGK_eq_of_top "value" ht, htv]
            exact ⟨.str "", rfl⟩
          | some v =>
            rw [getGK_eq_of_top "value" ht, htv]
            exact ⟨gtkResolve v, rfl⟩
        · rw [if_neg hgtk]
          by_cases hcus : pyEq t (.str "custom") = true
          · rw [if_pos hcus]
            cases htv : lookupKV tkvs "value" with
            | none =>
              rw [getGK_eq_of_top "value" ht, htv]
              exact ⟨.str "", rfl⟩
            | some v =>
              rw [getGK_eq_of_top "value" ht, htv]
              exact ⟨v, rfl⟩
          · rw [if_neg hcus]
            by_cases hbi : pyEq t (.str "builtin") = true
            · rw [if_pos hbi]
              dsimp only at hb2
              rw [if_pos hbi] at hb2
              cases htv : lookupKV tkvs "value" with
              | none =>
                rw [getGK_eq_of_top "value" ht, htv]
                exact ⟨.str "", rfl⟩
              | some v =>
                rw [getGK_eq_of_top "value" ht, htv]
                dsimp only
                rw [htv] at hb2
                cases v with
                | str sv =>
                  cases hlk : List.lookup sv builtinMapping with
                  | none => exact ⟨.str "", by dsimp only; rw [hlk]⟩
                  | some p => exact ⟨.str p, by dsimp only; rw [hlk]⟩
                | bool b => exact ⟨.str "", rfl⟩
                | int n => exact ⟨.str "", rfl⟩
                | list l => simp at hb2
                | obj o => simp at hb2
            · rw [if_neg hbi]
              exact ⟨.str "", rfl⟩
    | str sv => simp at hb
    | bool b => simp at hb
    | int n => simp at hb
    | list l => simp at hb

theorem livePreviewFromOld_ok {kvs : List (String × Value)}
    (hb : benignAt (.obj kvs) "editor" = true) :
    ∃ v, livePreviewFromOld (.obj kvs) = .ok v := by
  unfold livePreviewFromOld
  cases he : lookupKV kvs "editor" with
  | none =>
    rw [getGK_eq_of_top_none _ he]
    exact ⟨.bool false, rfl⟩
  | some ev =>
    cases ev with
    | obj ekvs =>
      rw [getGK_eq_of_top "live_preview" he]
      cases hl : lookupKV ekvs "live_preview" with
      | none => exact ⟨.bool false, rfl⟩
      | some v => exact ⟨v, rfl⟩
    | str sv => simp [benignAt, topVal, he] at hb
    | bool b => simp [benignAt, topVal, he] at hb
    | int n => simp [benignAt, topVal, he] at hb
    | list l => simp [benignAt, topVal, he] at hb

theorem editorCoerceKey_props (d : Value) (key : String) :
    isObjV (editorCoerceKey d key) = isObjV d ∧
    (∀ g, g ≠ "editor" → topVal (editorCoerceKey d key) g = topVal d g) ∧
    (benignAt d "editor" = true → benignAt (editorCoerceKey d key) "editor" = true) := by
  cases hgk : getGK d "editor" key with
  | error e =>
    have heq : editorCoerceKey d key = d := by
      unfold editorCoerceKey
      rw [hgk]
    rw [heq]
    exact ⟨rfl, fun _ _ => rfl, fun h => h⟩
  | ok v =>
    cases v with
    | str sv =>
      cases hsg : setGK d "editor" key (.bool (sv = "true" || sv = "True")) with
      | error e =>
        have heq : editorCoerceKey d key = d := by
          unfold editorCoerceKey
          rw [hgk]
          dsimp only
          rw [hsg]
        rw [heq]
        exact ⟨rfl, fun _ _ => rfl, fun h => h⟩
      | ok d' =>
        have heq : editorCoerceKey d key = d' := by
          unfold editorCoerceKey
          rw [hgk]
          dsimp only
          rw [hsg]
        rw [heq]
        obtain ⟨kvs, gkvs, rfl, hl, rfl⟩ := setGK_ok_cases hsg
        refine ⟨rfl, ?_, ?_⟩
        · intro g hg
          exact topVal_setKV_ne "editor" g _ hg
        · intro _
          simp [benignAt, topVal, isObjV, lookupKV_setKV_self]
    | bool b =>
      have heq : editorCoerceKey d key = d := by
        unfold editorCoerceKey
        rw [hgk]
      rw [heq]
      exact ⟨rfl, fun _ _ => rfl, fun h => h⟩
    | int n =>
      have heq : editorCoerceKey d key = d := by
        unfold editorCoerceKey
        rw [hgk]
      rw [heq]
      exact ⟨rfl, fun _ _ => rfl, fun h => h⟩
    | list l =>
      have heq : editorCoerceKey d key = d := by
        unfold editorCoerceKey
        rw [hgk]
      rw [heq]
      exact ⟨rfl, fun _ _ => rfl, fun h => h⟩
    | obj o =>
      have heq : editorCoerceKey d key = d := by
        unfold editorCoerceKey
        rw [hgk]
      rw [heq]
      exact ⟨rfl, fun _ _ => rfl, fun h => h⟩

theorem editorCoerceFold_props : ∀ (keys : List String) (d : Value),
    isObjV (keys.foldl editorCoerceKey d) = isObjV d ∧
    (∀ g, g ≠ "editor" → topVal (keys.foldl editorCoerceKey d) g = topVal d g) ∧
    (benignAt d "editor" = true →
      benignAt (keys.foldl editorCoerceKey d) "editor" = true)
  | [], d => ⟨rfl, fun _ _ => rfl, fun h => h⟩
  | k :: ks, d => by
    have h1 := editorCoerceKey_props d k
    have h2 := editorCoerceFold_props ks (editorCoerceKey d k)
    simp only [List.foldl_cons]
    exact ⟨h2.1.trans h1.1, fun g hg => (h2.2.1 g hg).trans (h1.2.1 g hg),
      fun h => h2.2.2 (h1.2.2 h)⟩

theorem removeIfExists_spec : ∀ (ps : List String) (fs : FS), FSW fs →
    ∃ fsf, removeIfExists ps fs = (.ok (), fsf) ∧ FSW fsf ∧
      (∀ q ∈ ps, fsf.files q = .absent) ∧
      (∀ q, q ∉ ps → fsf.files q = fs.files q) ∧ fsf.dirW = fs.dirW
  | [], fs, hW => ⟨fs, rfl, hW, by simp, fun _ _ => rfl, rfl⟩
  | p :: ps, fs, hW => by
    unfold removeIfExists
    cases hex : osPathExists fs p with
    | false =>
      rw [if_neg Bool.false_ne_true]
      obtain ⟨fsf, heq, hWf, hin, hout, hdw⟩ := removeIfExists_spec ps fs hW
      have habs : fs.files p = .absent := by
        unfold osPathExists at hex
        cases hfp : fs.files p with
        | absent => rfl
        | file w c => rw [hfp] at hex; cases hex
      refine ⟨fsf, heq, hWf, ?_, ?_, hdw⟩
      · intro q hq
        rcases List.mem_cons.mp hq with rfl | hq
        · by_cases hqs : q ∈ ps
          · exact hin q hqs
          · rw [hout q hqs]
            exact habs
        · exact hin q hq
      · intro q hq
        exact hout q (fun hmem => hq (List.mem_cons_of_mem _ hmem))
    | true =>
      rw [if_pos rfl]
      have hrm : osRemoveE fs p = .ok (fs.setFile p .absent) := by
        unfold osPathExists at hex
        unfold osRemoveE
        cases hfp : fs.files p with
        | absent => rw [hfp] at hex; cases hex
        | file w c => simp [hfp, hW.1 p]
      rw [hrm]
      have hW1 : FSW (fs.setFile p .absent) :=
        FSW_setFile hW _ _ (by intro w c hc; cases hc)
      obtain ⟨fsf, heq, hWf, hin, hout, hdw⟩ := removeIfExists_spec ps _ hW1
      refine ⟨fsf, heq, hWf, ?_, ?_, hdw.trans (FS.setFile_dirW _ _ _)⟩
      · intro q hq
        rcases List.mem_cons.mp hq with rfl | hq
        · by_cases hqs : q ∈ ps
          · exact hin q hqs
          · rw [hout q hqs, FS.setFile_files_self]
        · exact hin q hq
      · intro q hq
        have hqp : q ≠ p := fun h => hq (h ▸ List.mem_cons_self p ps)
        have hqs : q ∉ ps := fun h => hq (List.mem_cons_of_mem _ h)
        rw [hout q hqs, FS.setFile_files_ne _ _ _ _ hqp]

theorem defaultEntries_group_ne_editor :
    ∀ e ∈ defaultEntries, e.group ≠ "editor" := by decide

theorem defaultEntries_group_ne_cv :
    ∀ e ∈ defaultEntries, e.group ≠ "config_version" := by decide

theorem benignPrefsDoc_elim {d : Value} (h : benignPrefsDoc d = true) :
    benignGroups d = true ∧ benignAt d "editor" = true ∧ benignTrayIcon d = true := by
  unfold benignPrefsDoc at h
  simp only [Bool.and_eq_true] at h
  exact ⟨h.1.1, h.1.2, h.2⟩

theorem upgrade_step_lt5_spec (v : Int) {fs : FS} {kvs : List (String × Value)}
    (hW : FSW fs)
    (hf : fs.files prefsPath = .file true (.json (.obj kvs)))
    (hben : benignPrefsDoc (.obj kvs) = true) :
    ∃ kvs1 fs1, upgrade_step_lt5 v fs = (.ok (), fs1) ∧ FSW fs1 ∧
      fs1.files prefsPath = .file true (.json (.obj kvs1)) ∧
      benignPrefsDoc (.obj kvs1) = true ∧
      (∀ q, q ≠ prefsPath → q ≠ prefsPath ++ ".bak" → fs1.files q = fs.files q) := by
  obtain ⟨hbg, hbe, hbt⟩ := benignPrefsDoc_elim hben
  by_cases h5 : v < 5
  case neg =>
    refine ⟨kvs, fs, ?_, hW, hf, hben, fun _ _ _ => rfl⟩
    unfold upgrade_step_lt5
    rw [if_neg h5]
  case pos =>
    have hbs : prefsBenignState (fs.files prefsPath) = true := by
      rw [hf]
      exact hbg
    obtain ⟨df, fsf, hl, hWf, hok, hobj, heffA, heffB, htop, hex⟩ :=
      load_file_prefs_ok hW hbs
    have htopp := htop true kvs hf
    have hbe1 : benignAt df "editor" = true := by
      rw [benignAt_congr "editor" (by simp [isObjV]) hobj
        (htopp "editor" (by decide)
          (fun e he => (defaultEntries_group_ne_editor e he).symm))]
      exact hbe
    have hbt1 : benignTrayIcon df = true :=
      benignTrayIcon_pres (by simp [isObjV]) hobj
        (htopp "tray_icon" (by decide) (by decide)) hbt
    have hfold := editorCoerceFold_props
      ["activate_on_save", "live_switch", "live_preview"] df
    have hfoldobj : isObjV
        (["activate_on_save", "live_switch", "live_preview"].foldl
          editorCoerceKey df) = true := hfold.1.trans hobj
    obtain ⟨kvs2, hkvs2⟩ := isObjV_elim hfoldobj
    have hsave := save_file_prefs_ok kvs2 hWf
    have hbg1 : benignGroups (.obj kvs2) = true := by
      rw [← hkvs2]
      exact benignGroups_of_topvals hobj hfoldobj
        (fun e he => hfold.2.1 e.group (defaultEntries_group_ne_editor e he))
        (benignGroups_of_allOk hobj hok)
    have hbe2 : benignAt (.obj kvs2) "editor" = true := by
      rw [← hkvs2]
      exact hfold.2.2 hbe1
    have hbt2 : benignTrayIcon (.obj kvs2) = true := by
      rw [← hkvs2]
      exact benignTrayIcon_pres hobj hfoldobj
        (hfold.2.1 "tray_icon" (by decide)) hbt1
    refine ⟨setKV kvs2 "config_version" (.int version),
      fsf.setFile prefsPath (.file true (.json (.obj (setKV kvs2
        "config_version" (.int version))))), ?_, ?_, ?_, ?_, ?_⟩
    · unfold upgrade_step_lt5
      rw [if_pos h5, hl]
      dsimp only
      rw [hkvs2, hsave]
    · exact FSW_setFile hWf _ _ (by intro w c hc; cases hc; rfl)
    · rw [FS.setFile_files_self]
    · unfold benignPrefsDoc
      simp only [Bool.and_eq_true]
      refine ⟨⟨?_, ?_⟩, ?_⟩
      · exact benignGroups_of_topvals (d := .obj kvs2) (by simp [isObjV])
          (by simp [isObjV])
          (fun e he => topVal_setKV_ne "config_version" e.group _
            (defaultEntries_group_ne_cv e he)) hbg1
      · rw [benignAt_congr "editor" (d := .obj kvs2) (by simp [isObjV])
          (by simp [isObjV]) (topVal_setKV_ne "config_version" "editor" _ (by decide))]
        exact hbe2
      · exact benignTrayIcon_pres (d := .obj kvs2) (by simp [isObjV]) (by simp [isObjV])
          (topVal_setKV_ne "config_version" "tray_icon" _ (by decide)) hbt2
    · intro q hq hqb
      rw [FS.setFile_files_ne _ _ _ _ hq]
      exact heffA q hq hqb

theorem upgrade_step_lt7_spec (gtkResolve : Value → Value) (rgbToHex : Value → String)
    (v : Int) {fs : FS} {kvs : List (String × Value)} (hW : FSW fs) (h7 : v < 7)
    (hf : fs.files prefsPath = .file true (.json (.obj kvs)))
    (hben : benignPrefsDoc (.obj kvs) = true)
    (hcol : benignColoursState (fs.files coloursPath) = true) :
    ∃ kvsN fs2, upgrade_step_lt7 gtkResolve rgbToHex v fs = (.ok (), fs2) ∧ FSW fs2 ∧
      fs2.files prefsPath = .file true (.json (.obj kvsN)) ∧
      benignGroups (.obj kvsN) = true := by
  obtain ⟨hbg, hbe, hbt⟩ := benignPrefsDoc_elim hben
  have hbs : prefsBenignState (fs.files prefsPath) = true := by
    rw [hf]
    exact hbg
  obtain ⟨df, fsf, hl, hWf, hok, hobj, heffA, heffB, htop, hex⟩ :=
    load_file_prefs_ok hW hbs
  have htopp := htop true kvs hf
  have hbe1 : benignAt df "editor" = true := by
    rw [benignAt_congr "editor" (by simp [isObjV]) hobj
      (htopp "editor" (by decide)
        (fun e he => (defaultEntries_group_ne_editor e he).symm))]
    exact hbe
  have hbt1 : benignTrayIcon df = true :=
    benignTrayIcon_pres (by simp [isObjV]) hobj
      (htopp "tray_icon" (by decide) (by decide)) hbt
  obtain ⟨dfkvs, hdfkvs⟩ := isObjV_elim hobj
  obtain ⟨nt, hnt⟩ := @trayIconFromOld_ok gtkResolve dfkvs (hdfkvs ▸ hbt1)
  obtain ⟨lp, hlp⟩ := @livePreviewFromOld_ok dfkvs (hdfkvs ▸ hbe1)
  have hc0 : ∃ c, fsf.files prefsPath = .file true c := by
    unfold osPathExists at hex
    cases hfp : fsf.files prefsPath with
    | absent => rw [hfp] at hex; cases hex
    | file w c => exact ⟨c, by rw [hWf.2 _ _ _ hfp]⟩
  obtain ⟨c0, hc0⟩ := hc0
  have hrm : osRemoveE fsf prefsPath = .ok (fsf.setFile prefsPath .absent) := by
    unfold osRemoveE
    rw [hc0]
    simp [hWf.1 prefsPath]
  have hW2 : FSW (fsf.setFile prefsPath .absent) :=
    FSW_setFile hWf _ _ (by intro w c hc; cases hc)
  have hsave := save_file_prefs_ok
    [("colours", Value.obj [("primary", .str "#00FF00"), ("secondary", .str "#00FFFF")]),
     ("effects", Value.obj [("live_preview", lp)]),
     ("tray", Value.obj [("force_legacy_gtk_status", .bool false), ("icon", nt)])] hW2
  have hW3 : FSW ((fsf.setFile prefsPath .absent).setFile prefsPath
      (.file true (.json (.obj (setKV
        [("colours", Value.obj [("primary", .str "#00FF00"),
            ("secondary", .str "#00FFFF")]),
         ("effects", Value.obj [("live_preview", lp)]),
         ("tray", Value.obj [("force_legacy_gtk_status", .bool false), ("icon", nt)])]
        "config_version" (.int version)))))) :=
    FSW_setFile hW2 _ _ (by intro w c hc; cases hc; rfl)
  unfold upgrade_step_lt7
  rw [if_pos h7, hl]
  dsimp only
  rw [hdfkvs, hnt]
  dsimp only
  rw [hlp]
  dsimp only
  rw [hrm]
  dsimp only
  rw [hsave]
  dsimp only
  set fsS : FS := (fsf.setFile prefsPath .absent).setFile prefsPath
    (.file true (.json (.obj (setKV
      [("colours", Value.obj [("primary", .str "#00FF00"),
          ("secondary", .str "#00FFFF")]),
       ("effects", Value.obj [("live_preview", lp)]),
       ("tray", Value.obj [("force_legacy_gtk_status", .bool false), ("icon", nt)])]
      "config_version" (.int version))))) with hfsS
  have hSprefs : fsS.files prefsPath = .file true (.json (.obj (setKV
      [("colours", Value.obj [("primary", .str "#00FF00"),
          ("secondary", .str "#00FFFF")]),
       ("effects", Value.obj [("live_preview", lp)]),
       ("tray", Value.obj [("force_legacy_gtk_status", .bool false), ("icon", nt)])]
      "config_version" (.int version)))) := by
    rw [hfsS, FS.setFile_files_self]
  have hScol : fsS.files coloursPath = fs.files coloursPath := by
    rw [hfsS, FS.setFile_files_ne _ _ _ _ (by decide),
      FS.setFile_files_ne _ _ _ _ (by decide)]
    exact heffA coloursPath (by decide) (by decide)
  have hbgN : benignGroups (.obj (setKV
      [("colours", Value.obj [("primary", .str "#00FF00"),
          ("secondary", .str "#00FFFF")]),
       ("effects", Value.obj [("live_preview", lp)]),
       ("tray", Value.obj [("force_legacy_gtk_status", .bool false), ("icon", nt)])]
      "config_version" (.int version))) = true := by rfl
  by_cases hdev : osPathExists fsS oldDevicestatePath = true
  · rw [if_pos hdev]
    have hd0 : ∃ c, fsS.files oldDevicestatePath = .file true c := by
      unfold osPathExists at hdev
      cases hfp : fsS.files oldDevicestatePath with
      | absent => rw [hfp] at hdev; cases hdev
      | file w c => exact ⟨c, by rw [hW3.2 _ _ _ hfp]⟩
    obtain ⟨cD, hcD⟩ := hd0
    have hrmD : osRemoveE fsS oldDevicestatePath
        = .ok (fsS.setFile oldDevicestatePath .absent) := by
      unfold osRemoveE
      rw [hcD]
      simp [hW3.1 oldDevicestatePath]
    rw [hrmD]
    dsimp only
    have hW4 : FSW (fsS.setFile oldDevicestatePath .absent) :=
      FSW_setFile hW3 _ _ (by intro w c hc; cases hc)
    have hcol4 : benignColoursState
        ((fsS.setFile oldDevicestatePath .absent).files coloursPath) = true := by
      rw [FS.setFile_files_ne _ _ _ _ (by decide), hScol]
      exact hcol
    obtain ⟨fsc, hmc, hWc, heffC, _⟩ := migrate_colours_spec rgbToHex hW4 hcol4
    rw [hmc]
    refine ⟨_, fsc, rfl, hWc, ?_, hbgN⟩
    rw [heffC prefsPath (by decide) (by decide),
      FS.setFile_files_ne _ _ _ _ (by decide), hSprefs]
  · rw [if_neg hdev]
    dsimp only
    have hcol4 : benignColoursState (fsS.files coloursPath) = true := by
      rw [hScol]
      exact hcol
    obtain ⟨fsc, hmc, hWc, heffC, _⟩ := migrate_colours_spec rgbToHex hW3 hcol4
    rw [hmc]
    refine ⟨_, fsc, rfl, hWc, ?_, hbgN⟩
    rw [heffC prefsPath (by decide) (by decide), hSprefs]

theorem upgrade_finalize_spec {fs : FS} {kvs : List (String × Value)} (hW : FSW fs)
    (hf : fs.files prefsPath = .file true (.json (.obj kvs)))
    (hbg : benignGroups (.obj kvs) = true) :
    ∃ d' fsf, upgrade_finalize fs = (.ok (), fsf) ∧
      fsf.files prefsPath = .file true (.json d') ∧
      pyGetItem d' "config_version" = .ok (.int 7) := by
  have hbs : prefsBenignState (fs.files prefsPath) = true := by
    rw [hf]
    exact hbg
  obtain ⟨df, fsf, hl, hWf, hok, hobj, heffA, heffB, htop, hex⟩ :=
    load_file_prefs_ok hW hbs
  obtain ⟨dfkvs, hdfkvs⟩ := isObjV_elim hobj
  have hsave := save_file_prefs_ok (setKV dfkvs "config_version" (.int version)) hWf
  refine ⟨.obj (setKV (setKV dfkvs "config_version" (.int version)) "config_version"
    (.int version)),
    fsf.setFile prefsPath (.file true (.json (.obj (setKV
      (setKV dfkvs "config_version" (.int version)) "config_version"
      (.int version))))), ?_, ?_, ?_⟩
  · unfold upgrade_finalize
    rw [hl]
    dsimp only
    rw [hdfkvs]
    dsimp only [pySetItem]
    rw [hsave]
  · rw [FS.setFile_files_self]
  · simp [pyGetItem, lookupKV_setKV_self, version]

/-! ## Claim C2 -/

/-- A writable filesystem whose preferences document is
`{"config_version": 4, "colours": 5}` — a version-4 document whose
`colours` group holds a non-dict value. -/
def fsC2x : FS :=
  { files := fun p => if p = prefsPath then
      .file true (.json (.obj [("config_version", .int 4), ("colours", .int 5)]))
    else .absent,
    dirW := fun _ => true }

/-- C2 (counterexample): on a version-4 preferences document whose
`colours` group holds the integer 5, the migration pass raises an uncaught
TypeError (from the schema validator's group access) and leaves the on-disk
`config_version` at 4 — so the claim that every `v < 7`, `v ≠ 6` document
is stamped to 7 by one pass is false on this input. -/
theorem c2_counterexample :
    (upgrade_old_pref (fun x => x) (fun _ => "") fsC2x).1 = .error .typeError ∧
    (upgrade_old_pref (fun x => x) (fun _ => "") fsC2x).2.files prefsPath
      = .file true (.json (.obj [("config_version", .int 4), ("colours", .int 5)])) :=
  ⟨by rfl, by rfl⟩

/-- C2 (amended): on a writable filesystem, for every preferences document
with integer `config_version = v < 7` whose shape is benign for the
migration (validated groups, `editor` and `tray_icon` dicts when present,
hashable builtin tray value) and whose colours file is absent, corrupt, a
list, or a well-formed legacy mapping: when `v ≠ 6` a single
`upgrade_old_pref` run succeeds and leaves the on-disk preferences document
with `config_version = 7`; when `v = 6` the run instead deletes the
preferences, colours and legacy devicestate files and touches nothing
else — no version is stamped. -/
theorem c2_migration_stamps_version (gtkResolve : Value → Value)
    (rgbToHex : Value → String) (fs : FS) (kvs : List (String × Value)) (v : Int)
    (hW : FSW fs)
    (hf : fs.files prefsPath = .file true (.json (.obj kvs)))
    (hcv : lookupKV kvs "config_version" = some (.int v))
    (hlt : v < 7)
    (hbenP : benignPrefsDoc (.obj kvs) = true)
    (hcol : benignColoursState (fs.files coloursPath) = true) :
    (v ≠ 6 → ∃ d' fsf, upgrade_old_pref gtkResolve rgbToHex fs = (.ok (), fsf) ∧
      fsf.files prefsPath = .file true (.json d') ∧
      pyGetItem d' "config_version" = .ok (.int 7)) ∧
    (v = 6 → ∃ fsf, upgrade_old_pref gtkResolve rgbToHex fs = (.ok (), fsf) ∧
      fsf.files prefsPath = .absent ∧ fsf.files coloursPath = .absent ∧
      fsf.files oldDevicestatePath = .absent ∧
      (∀ q, q ∉ [prefsPath, coloursPath, oldDevicestatePath] →
        fsf.files q = fs.files q)) := by
  have hread : upgrade_read_version fs = .ok v := by
    unfold upgrade_read_version
    rw [hf]
    dsimp only
    rw [show pyGetItem (.obj kvs) "config_version" = .ok (.int v) by
      simp [pyGetItem, hcv]]
    rfl
  constructor
  · intro h6
    unfold upgrade_old_pref
    rw [hread]
    dsimp only
    rw [if_neg (show ¬ (version = v) by unfold version; omega)]
    rw [if_neg (show ¬ (v > version) by unfold version; omega)]
    obtain ⟨kvs1, fs1, h5eq, hW1, hf1, hben1, heff1⟩ :=
      upgrade_step_lt5_spec v hW hf hbenP
    rw [h5eq]
    dsimp only
    rw [if_neg h6]
    have hcol1 : benignColoursState (fs1.files coloursPath) = true := by
      rw [heff1 coloursPath (by decide) (by decide)]
      exact hcol
    obtain ⟨kvsN, fs2, h7eq, hW2, hf2, hbg2⟩ :=
      upgrade_step_lt7_spec gtkResolve rgbToHex v hW1 hlt hf1 hben1 hcol1
    rw [h7eq]
    dsimp only
    exact upgrade_finalize_spec hW2 hf2 hbg2
  · intro h6
    subst h6
    unfold upgrade_old_pref
    rw [hread]
    dsimp only
    rw [if_neg (show ¬ (version = 6) by unfold version; omega)]
    rw [if_neg (show ¬ ((6 : Int) > version) by unfold version; omega)]
    rw [show upgrade_step_lt5 6 fs = (.ok (), fs) by
      unfold upgrade_step_lt5
      rw [if_neg (by omega : ¬ (6 : Int) < 5)]]
    dsimp only
    rw [if_pos rfl]
    unfold upgrade_step_eq6
    obtain ⟨fsf, heq, hWf, hin, hout, _⟩ :=
      removeIfExists_spec [prefsPath, coloursPath, oldDevicestatePath] fs hW
    refine ⟨fsf, heq, hin _ (by simp), hin _ (by simp), hin _ (by simp), hout⟩

/-- A writable filesystem with a version-4 preferences document holding a
boolean-like string in `editor.live_preview`, and no colours file. -/
def fsC2w : FS :=
  { files := fun p => if p = prefsPath then
      .file true (.json (.obj [("config_version", .int 4),
        ("editor", .obj [("live_preview", .str "true")])]))
    else .absent,
    dirW := fun _ => true }

/-- C2 (witness): the amended migration claim applied to a concrete
version-4 document. -/
theorem c2_witness :
    ((4 : Int) ≠ 6 → ∃ d' fsf,
      upgrade_old_pref (fun x => x) (fun _ => "") fsC2w = (.ok (), fsf) ∧
      fsf.files prefsPath = .file true (.json d') ∧
      pyGetItem d' "config_version" = .ok (.int 7)) ∧
    ((4 : Int) = 6 → ∃ fsf,
      upgrade_old_pref (fun x => x) (fun _ => "") fsC2w = (.ok (), fsf) ∧
      fsf.files prefsPath = .absent ∧ fsf.files coloursPath = .absent ∧
      fsf.files oldDevicestatePath = .absent ∧
      (∀ q, q ∉ [prefsPath, coloursPath, oldDevicestatePath] →
        fsf.files q = fsC2w.files q)) :=
  c2_migration_stamps_version (fun x => x) (fun _ => "") fsC2w
    [("config_version", .int 4), ("editor", .obj [("live_preview", .str "true")])] 4
    ⟨fun _ => rfl, fun p w c h => by
      by_cases hp : p = prefsPath <;> simp [fsC2w, hp] at h <;> simp [h.1]⟩
    (by rfl) (by rfl) (by decide) (by decide) (by rfl)

end Pref
